import Mathlib

/-!
Verification of the content scoring and insight engine of the red-insight
repository (src/analytics.py, src/rankings.py, src/regional.py).

Modelling conventions for the shallow embedding:
* Python strings are sequences of Unicode code points, modelled as `List Char`.
* Python `int` is modelled as `ℤ` (`ℕ` where the source value is a count).
* Python `float` values produced by `float(...)` on decimal literals are
  modelled exactly as `ℚ`; `round(x, n)` is modelled as round-half-to-even on
  `ℚ` and `int(x)` as truncation toward zero.
* A Python function that can raise is modelled in the `Option` monad:
  `none` models an uncaught exception.
* Python's stable `list.sort` / `sorted` with `reverse=True` is modelled by a
  stable structural insertion sort (any stable sort computes the same list).
-/

set_option maxRecDepth 8000

/-! ## Definitions: the embedded data model and operations -/

/-- Python strings modelled as lists of code points. -/
abbrev Str := List Char

/-- Coerce a Lean string literal to the `Str` model. -/
def str (s : String) : Str := s.data

/-- Computable floor of a rational (`Rat.floor` from Batteries). -/
def flo (q : ℚ) : ℤ := Rat.floor q

/-- Round-half-to-even to an integer, as Python's `round` does on a value
that is an exact decimal. -/
def rhe (q : ℚ) : ℤ :=
  let f : ℚ := q - flo q
  if f < 1/2 then flo q
  else if 1/2 < f then flo q + 1
  else if flo q % 2 = 0 then flo q else flo q + 1

/-- Python `round(q, d)`: round to `d` decimal digits, half to even. -/
def pyRound (q : ℚ) (d : ℕ) : ℚ := (rhe (q * 10 ^ d) : ℚ) / 10 ^ d

/-- Python `int(q)` on a float: truncation toward zero. -/
def pyInt (q : ℚ) : ℤ := if q < 0 then -flo (-q) else flo q

/-- ASCII decimal digit.  Models `str.isdigit` on the inputs of interest
(Python additionally accepts non-ASCII Unicode digits). -/
def isDigitChar (c : Char) : Bool := '0' ≤ c && c ≤ '9'

/-- Numeric value of a string of ASCII digits, most significant first:
models `int(s)` on a non-empty all-digit string, and yields `0` on the
empty string (where `int('')` raises and the source catches and returns 0). -/
def natOfDigits (s : Str) : ℕ :=
  s.foldl (fun n c => 10 * n + (c.toNat - '0'.toNat)) 0

/-- Python `str.lower`, restricted to ASCII case mapping (the characters the
engine inspects — ASCII letters, digits, CJK, suffix marks — are unchanged
or ASCII-lowered exactly as in Python). -/
def toLowerStr (s : Str) : Str := s.map Char.toLower

/-- Python `str.strip()`: remove leading and trailing whitespace. -/
def pyStrip (s : Str) : Str :=
  ((s.dropWhile Char.isWhitespace).reverse.dropWhile Char.isWhitespace).reverse

/-- Python `float(s)` on plain decimal literals: optional sign, then digits
with at most one decimal point and at least one digit.  `none` models a
`ValueError`.  (Exponent, `inf`/`nan` and underscore forms of Python's
`float` are outside the forms the engine's inputs take and are not
modelled.) -/
def parseFloat? (s : Str) : Option ℚ :=
  let core : Str → Option ℚ := fun t =>
    if t ≠ [] && t.all isDigitChar then
      some (natOfDigits t)
    else
      let a := t.takeWhile (fun c => c ≠ '.')
      let b := (t.dropWhile (fun c => c ≠ '.')).drop 1
      if t.count '.' = 1 && a.all isDigitChar && b.all isDigitChar &&
          (a ≠ [] || b ≠ []) then
        some ((natOfDigits a : ℚ) + (natOfDigits b : ℚ) / 10 ^ b.length)
      else none
  match s with
  | '-' :: r => (core r).map (fun q => -q)
  | '+' :: r => core r
  | r => core r

/-- Remove every occurrence of the given characters: models chained
`str.replace(c, '')` calls. -/
def removeAll (s : Str) (cs : List Char) : Str :=
  s.filter (fun c => !(cs.contains c))

/-- The common body of `AnalyticsService._parse_number`,
`RankingService._parse_likes` and `RegionalService._parse_engagement`,
applied after the lower-casing (and, for analytics, stripping) step.
`none` models the uncaught `ValueError` raised by `float(...)` in the
`w`/`万` and `k`/`千` branches, which sit outside the `try`/`except`;
the final digit-filtering branch is wrapped in `try`/`except` in the
source and therefore never fails (an empty digit string yields 0). -/
def parseNumberBody (value : Str) : Option ℤ :=
  if value.contains 'w' || value.contains '万' then
    (parseFloat? (removeAll value ['w', '万'])).map (fun q => pyInt (q * 10000))
  else if value.contains 'k' || value.contains '千' then
    (parseFloat? (removeAll value ['k', '千'])).map (fun q => pyInt (q * 1000))
  else
    some (natOfDigits (value.filter isDigitChar))

/-- `AnalyticsService._parse_number` (src/analytics.py lines 128-140):
empty value returns 0, otherwise lower-case, strip, and dispatch on the
`w`/`万` / `k`/`千` suffixes. -/
def parse_number (value : Str) : Option ℤ :=
  if value = [] then some 0
  else parseNumberBody (pyStrip (toLowerStr value))

/-- `RankingService._parse_likes` (src/rankings.py lines 140-152) and
`RegionalService._parse_engagement` (src/regional.py lines 207-219):
identical to `_parse_number` except that the value is not stripped. -/
def parse_likes (value : Str) : Option ℤ :=
  if value = [] then some 0
  else parseNumberBody (toLowerStr value)

/-- A post record as consumed by the engine (the fields the engine reads;
`likes` and `comments` are raw count strings). -/
structure Post where
  id : Str
  title : Str
  content : Str
  author : Str
  likes : Str
  comments : Str
  tags : List Str
deriving DecidableEq

/-- Engagement of a post: normalized likes plus normalized comments
(src/analytics.py lines 184-188). -/
def engagement_of (p : Post) : Option ℤ := do
  let l ← parse_number p.likes
  let c ← parse_number p.comments
  pure (l + c)

/-- A CJK ideograph, the regex class `[一-龥]`. -/
def isCJKChar (c : Char) : Bool := 0x4e00 ≤ c.toNat && c.toNat ≤ 0x9fa5

/-- An ASCII letter, the regex class `[a-zA-Z]`. -/
def isAsciiAlphaChar (c : Char) : Bool :=
  ('a' ≤ c && c ≤ 'z') || ('A' ≤ c && c ≤ 'Z')

/-- One step of `re.sub(r'[^一-龥a-zA-Z0-9]', ' ', text)`. -/
def cleanChar (c : Char) : Char :=
  if isCJKChar c || isAsciiAlphaChar c || isDigitChar c then c else ' '

/-- Accumulator worker for `runs`. -/
def runsAux (p : Char → Bool) (cur : Str) : Str → List Str
  | [] => if cur = [] then [] else [cur.reverse]
  | c :: cs =>
      if p c then runsAux p (c :: cur) cs
      else if cur = [] then runsAux p [] cs
      else cur.reverse :: runsAux p [] cs

/-- The maximal runs of characters satisfying `p`, in order: models
`re.findall(r'X+', s)` for a character class `X`. -/
def runs (p : Char → Bool) (s : Str) : List Str := runsAux p [] s

/-- All slices `s[i:i+k]` for `i in range(len(s) - k + 1)`. -/
def slidingSlices (s : Str) (k : ℕ) : List Str :=
  (List.range (s.length + 1 - k)).map (fun i => (s.drop i).take k)

/-- The Chinese stop-word set of src/analytics.py lines 111-119. -/
def STOP_WORDS : List Str :=
  [str "的", str "了", str "是", str "在", str "我", str "有", str "和",
   str "就", str "不", str "人", str "都", str "一", str "一个",
   str "上", str "也", str "很", str "到", str "说", str "要", str "去",
   str "你", str "会", str "着", str "没有", str "看", str "好",
   str "自己", str "这", str "那", str "里", str "为", str "什么",
   str "吗", str "个", str "能", str "么", str "做", str "被",
   str "与", str "及", str "等", str "但", str "还", str "可以",
   str "这个", str "那个", str "没", str "来", str "让", str "给",
   str "把", str "从", str "最", str "更", str "真的", str "觉得",
   str "真", str "太", str "啊", str "呢", str "吧", str "嘛",
   str "呀", str "哦", str "哈", str "哈哈", str "嗯", str "哇",
   str "真的是", str "太太太", str "超级", str "非常",
   str "特别", str "超", str "巨", str "绝绝子", str "家人们",
   str "姐妹们", str "宝子们", str "集美们"]

/-- `AnalyticsService._extract_words`: non-CJK/alpha/digit characters become
spaces; all maximal CJK runs are collected by `re.findall` and joined into
one string over which every window of length 4, 3, then 2 not in the
stop-word set is emitted; ASCII alphabetic runs of length at least 2 are
emitted lower-cased. -/
def extract_words (text : Str) : List Str :=
  if text = [] then []
  else
    let cleaned := text.map cleanChar
    let chineseText := (runs isCJKChar cleaned).flatten
    let cjkWords := (([4, 3, 2].map (fun k => slidingSlices chineseText k)).flatten).filter
      (fun w => !(STOP_WORDS.contains w))
    let englishWords :=
      ((runs isAsciiAlphaChar cleaned).filter (fun r => 2 ≤ r.length)).map toLowerStr
    cjkWords ++ englishWords

/-- Modelled from the amended claim: the tokenizer joins all maximal CJK
runs of the input into a single string and takes sliding windows of length
4, 3, then 2 over the joined string (so a window may span two runs), plus
the lower-cased ASCII alphabetic runs of length at least 2. -/
def specExtractWordsJoined (text : Str) : List Str :=
  (([4, 3, 2].map (fun k => slidingSlices ((runs isCJKChar text).flatten) k)).flatten).filter
    (fun w => !(STOP_WORDS.contains w)) ++
  ((runs isAsciiAlphaChar text).filter (fun r => 2 ≤ r.length)).map toLowerStr

/-- Modelled from the claim as stated: sliding windows of length 4, 3, 2
are taken within each maximal CJK run separately, so that no emitted CJK
token spans two distinct runs. -/
def claimExtractWordsPerRun (text : Str) : List Str :=
  ((runs isCJKChar text).map (fun r =>
    (([4, 3, 2].map (fun k => slidingSlices r k)).flatten).filter
      (fun w => !(STOP_WORDS.contains w)))).flatten ++
  ((runs isAsciiAlphaChar text).filter (fun r => 2 ≤ r.length)).map toLowerStr

/-- Insert `x` into a descending-sorted list, after all elements whose key
is greater than or equal to `key x`. -/
def insertDescBy {α : Type} {β : Type} [LinearOrder β] (key : α → β) (x : α) :
    List α → List α
  | [] => [x]
  | y :: ys => if key y < key x then x :: y :: ys else y :: insertDescBy key x ys

/-- Stable descending sort by `key`: models `sorted(l, key=key, reverse=True)`. -/
def sortDescBy {α : Type} {β : Type} [LinearOrder β] (key : α → β) (l : List α) :
    List α :=
  l.foldl (fun acc x => insertDescBy key x acc) []

/-- The per-word accumulator entry of `word_stats`. -/
structure WordStat where
  count : ℕ
  engagement : ℤ
  posts : ℕ
deriving DecidableEq

/-- A hot word as emitted (src/analytics.py lines 31-37). -/
structure HotWord where
  word : Str
  count : ℕ
  weight : ℚ
  related_posts : ℕ
deriving DecidableEq

/-- First occurrence of a word in a post: create the entry if absent and
increment its `posts` field (src/analytics.py lines 221-225). -/
def bumpPosts (ws : List (Str × WordStat)) (w : Str) : List (Str × WordStat) :=
  if ws.any (fun e => e.1 = w) then
    ws.map (fun e => if e.1 = w then (e.1, { e.2 with posts := e.2.posts + 1 }) else e)
  else ws ++ [(w, ⟨0, 0, 1⟩)]

/-- Every occurrence of a word: increment `count` and add the post's
like-engagement (src/analytics.py lines 226-227). -/
def bumpCount (ws : List (Str × WordStat)) (w : Str) (eng : ℤ) :
    List (Str × WordStat) :=
  ws.map (fun e =>
    if e.1 = w then
      (e.1, { e.2 with count := e.2.count + 1, engagement := e.2.engagement + eng })
    else e)

/-- Process one post's extracted word list against the running statistics,
with the post-local `seen_in_post` set (src/analytics.py lines 219-227). -/
def processPostWords (ws : List (Str × WordStat)) (words : List Str) (eng : ℤ) :
    List (Str × WordStat) :=
  (words.foldl (fun acc w =>
    let ws' := if acc.2.contains w then acc.1 else bumpPosts acc.1 w
    let seen' := if acc.2.contains w then acc.2 else w :: acc.2
    (bumpCount ws' w eng, seen')) (ws, ([] : List Str))).1

/-- The `word_stats` insertion-ordered dictionary built over all posts
(src/analytics.py lines 212-227); the word source is
`title + ' ' + content` and the engagement source is the parsed likes. -/
def word_stats (posts : List Post) : Option (List (Str × WordStat)) :=
  posts.foldlM (fun ws p => do
    let eng ← parse_number p.likes
    pure (processPostWords ws (extract_words (p.title ++ [' '] ++ p.content)) eng)) []

/-- `max((s['count'] for s in word_stats.values()), default=1)`. -/
def maxCountAll (ws : List (Str × WordStat)) : ℕ :=
  ((ws.map (fun e => e.2.count)).max?).getD 1

/-- `max((s['engagement'] for s in word_stats.values()), default=1)`. -/
def maxEngagementAll (ws : List (Str × WordStat)) : ℤ :=
  ((ws.map (fun e => e.2.engagement)).max?).getD 1

/-- `AnalyticsService.analyze_hot_words`: words supported by at least two
posts are weighted by `0.4·count/max_count + 0.6·engagement/max_engagement`
(maxima over the whole `word_stats` dictionary), rounded to 3 decimals,
sorted descending by weight, truncated to `top_n`. -/
def analyze_hot_words (posts : List Post) (topN : ℕ) : Option (List HotWord) := do
  let ws ← word_stats posts
  let maxC := maxCountAll ws
  let maxE := maxEngagementAll ws
  let hws := ws.filterMap (fun e =>
    if 2 ≤ e.2.posts then
      some { word := e.1, count := e.2.count,
             weight := pyRound ((e.2.count : ℚ) / (maxC : ℚ) * (2/5) +
               (e.2.engagement : ℚ) / (maxE : ℚ) * (3/5)) 3,
             related_posts := e.2.posts }
    else none)
  pure ((sortDescBy (fun hw => hw.weight) hws).take topN)

/-- Modelled from the claim as stated: the count maximum taken over only
the words with at-least-2-post support. -/
def claimMaxCount (ws : List (Str × WordStat)) : ℕ :=
  (((ws.filter (fun e => 2 ≤ e.2.posts)).map (fun e => e.2.count)).max?).getD 1

/-- Modelled from the claim as stated: the engagement maximum taken over
only the words with at-least-2-post support. -/
def claimMaxEngagement (ws : List (Str × WordStat)) : ℤ :=
  (((ws.filter (fun e => 2 ≤ e.2.posts)).map (fun e => e.2.engagement)).max?).getD 1

/-- One emitted bucket (src/analytics.py lines 22-28). -/
structure EngagementDistribution where
  range_label : Str
  count : ℕ
  percentage : ℚ
  total_engagement : ℤ
deriving DecidableEq

/-- The fixed bucket ranges `[min, max)` (max absent on the last bucket),
src/analytics.py lines 172-180. -/
def engagementRanges : List (ℤ × Option ℤ × Str) :=
  [(0, some 100, str "0-100"), (100, some 500, str "100-500"),
   (500, some 1000, str "500-1k"), (1000, some 5000, str "1k-5k"),
   (5000, some 10000, str "5k-1w"), (10000, some 50000, str "1w-5w"),
   (50000, none, str "5w+")]

/-- Membership of an engagement value in one range. -/
def inRange (e : ℤ) (r : ℤ × Option ℤ × Str) : Bool :=
  decide (r.1 ≤ e) && (match r.2.1 with | some m => decide (e < m) | none => true)

/-- Index of the first matching range (the loop with `break`,
src/analytics.py lines 190-194); `none` when no range matches. -/
def bucketOf (e : ℤ) : Option ℕ := engagementRanges.findIdx? (inRange e)

/-- `AnalyticsService.analyze_engagement_distribution`: per-bucket count and
engagement total over the first matching range of each post, then one
output record per non-empty bucket, with
`percentage = round(count / total_posts * 100, 1)`. -/
def analyze_engagement_distribution (posts : List Post) :
    Option (List EngagementDistribution) :=
  if posts = [] then some []
  else do
    let es ← posts.mapM engagement_of
    pure (engagementRanges.enum.filterMap (fun jr =>
      let cnt := es.countP (fun e => decide (bucketOf e = some jr.1))
      if 0 < cnt then
        some { range_label := jr.2.2.2, count := cnt,
               percentage := pyRound ((cnt : ℚ) / (posts.length : ℚ) * 100) 1,
               total_engagement := (es.filter (fun e => decide (bucketOf e = some jr.1))).sum }
      else none))

/-- One per-author entry of the regional `author_stats` dictionary. -/
structure RegionalAuthorStat where
  author : Str
  posts_count : ℕ
  total_likes : ℤ
deriving DecidableEq

/-- Insert-or-update one post into the regional per-author dictionary
(src/regional.py lines 322-326); no author value is excluded. -/
def bumpAuthor (stats : List RegionalAuthorStat) (a : Str) (likes : ℤ) :
    List RegionalAuthorStat :=
  if stats.any (fun e => e.author = a) then
    stats.map (fun e =>
      if e.author = a then
        { e with posts_count := e.posts_count + 1, total_likes := e.total_likes + likes }
      else e)
  else stats ++ [{ author := a, posts_count := 1, total_likes := likes }]

/-- The regional `author_stats` dictionary over the deduplicated posts
(src/regional.py lines 320-326). -/
def regional_author_stats (posts : List Post) : Option (List RegionalAuthorStat) :=
  posts.foldlM (fun stats p => do
    let likes ← parse_likes p.likes
    pure (bumpAuthor stats p.author likes)) []

/-- `top_authors`: the regional author entries sorted descending by total
likes and truncated to 5 (src/regional.py lines 328-335). -/
def regional_top_authors (posts : List Post) : Option (List RegionalAuthorStat) :=
  (regional_author_stats posts).map
    (fun stats => (sortDescBy (fun e => e.total_likes) stats).take 5)

/-- An emitted quality score (src/analytics.py lines 59-68). -/
structure QualityScore where
  post_id : Str
  post_title : Str
  total_score : ℚ
  engagement_score : ℚ
  content_score : ℚ
  author_score : ℚ
  viral_potential : Str
deriving DecidableEq

/-- The emoji block of the regex `[\U0001F300-\U0001F9FF]`. -/
def isEmojiChar (c : Char) : Bool := 0x1F300 ≤ c.toNat && c.toNat ≤ 0x1F9FF

/-- `max(...) or 1`: a zero maximum is replaced by 1. -/
def orOne (z : ℤ) : ℤ := if z = 0 then 1 else z

/-- The engagement sub-score `(likes/max_likes)*25 + (comments/max_comments)*15`. -/
def rawEngagementScore (maxL maxC l c : ℤ) : ℚ :=
  (l : ℚ) / (maxL : ℚ) * 25 + (c : ℚ) / (maxC : ℚ) * 15

/-- The content sub-score: title length, combined length, emoji bonus and
tag bonus (src/analytics.py lines 338-344). -/
def rawContentScore (p : Post) : ℚ :=
  min ((p.title.length : ℚ) / 30) 1 * 15 +
  min (((p.title.length + p.content.length : ℕ) : ℚ) / 200) 1 * 10 +
  min ((((p.title ++ p.content).filter isEmojiChar).length : ℚ) * (1/2)) 5 +
  min ((p.tags.length : ℚ) * (3/2)) 5

/-- The author sub-score `min(((likes + comments*2) / max(1, likes+1)) * 10, 25)`. -/
def rawAuthorScore (l c : ℤ) : ℚ :=
  min (((l : ℚ) + (c : ℚ) * 2) / ((max 1 (l + 1) : ℤ) : ℚ) * 10) 25

/-- The unrounded total score of one post. -/
def rawTotalScore (maxL maxC : ℤ) (p : Post) (l c : ℤ) : ℚ :=
  rawEngagementScore maxL maxC l c + rawContentScore p + rawAuthorScore l c

/-- The emitted quality record of one post: sub-scores rounded to 1 decimal
and the viral tier decided on the unrounded total (src/analytics.py
lines 326-368). -/
def mkQualityScore (maxL maxC : ℤ) (p : Post) (l c : ℤ) : QualityScore :=
  let tot := rawTotalScore maxL maxC p l c
  { post_id := p.id, post_title := p.title.take 50,
    total_score := pyRound tot 1,
    engagement_score := pyRound (rawEngagementScore maxL maxC l c) 1,
    content_score := pyRound (rawContentScore p) 1,
    author_score := pyRound (rawAuthorScore l c) 1,
    viral_potential :=
      if 70 ≤ tot then str "high" else if 45 ≤ tot then str "medium" else str "low" }

/-- `AnalyticsService.calculate_quality_scores`: normalizing maxima floored
at 1 via `or 1`, one record per post, sorted descending by the (rounded)
total score. -/
def calculate_quality_scores (posts : List Post) : Option (List QualityScore) :=
  if posts = [] then some []
  else do
    let parsed ← posts.mapM (fun p => do
      let l ← parse_number p.likes
      let c ← parse_number p.comments
      pure (p, l, c))
    let maxL := orOne (((parsed.map (fun t => t.2.1)).max?).getD 0)
    let maxC := orOne (((parsed.map (fun t => t.2.2)).max?).getD 0)
    pure (sortDescBy (fun q => q.total_score)
      (parsed.map (fun t => mkQualityScore maxL maxC t.1 t.2.1 t.2.2)))

/-- A ranking item (src/rankings.py lines 31-38). -/
structure RankingItem where
  rank : ℕ
  post : Post
  score : ℚ
  trend : Str
  trend_value : ℤ
deriving DecidableEq

/-- The fields of a ranking result that the engine computes
(src/rankings.py lines 41-49; the static title and description strings
are presentation data and carry no computation). -/
structure RankingResult where
  ranking_type : Str
  items : List RankingItem
  total_engagement : ℤ
  avg_score : ℚ
deriving DecidableEq

/-- `RankingService._calculate_score` (src/rankings.py lines 154-169). -/
def calculate_score (p : Post) (sortBy : Str) : Option ℚ := do
  let likes ← parse_likes p.likes
  let comments ← parse_likes p.comments
  pure (if sortBy = str "engagement" then (likes : ℚ) * 1 + (comments : ℚ) * 2
    else if sortBy = str "rising" then (likes : ℚ) * (1/2) + (comments : ℚ) * 3
    else if sortBy = str "weekly" then (likes : ℚ) * (6/5) + (comments : ℚ) * (3/2)
    else (likes : ℚ) + (comments : ℚ))

/-- The deduplication key: the first 30 characters of the title. -/
def titleKey (p : Post) : Str := p.title.take 30

/-- Worker for `dedup_by_title` carrying the `seen_titles` set. -/
def dedupAux (seen : List Str) : List Post → List Post
  | [] => []
  | p :: ps =>
      if seen.contains (titleKey p) then dedupAux seen ps
      else p :: dedupAux (titleKey p :: seen) ps

/-- Deduplication by truncated title, first occurrence wins
(src/rankings.py lines 186-193 and src/regional.py lines 283-289). -/
def dedup_by_title (posts : List Post) : List Post := dedupAux [] posts

/-- The specification-style characterization of deduplication: keep the
head and drop every later post with the same key. -/
def specDedup : List Post → List Post
  | [] => []
  | p :: ps =>
      p :: specDedup (ps.filter (fun q => !(titleKey q = titleKey p)))
termination_by l => l.length
decreasing_by
  simp only [List.length_cons]
  exact Nat.lt_succ_of_le (List.length_filter_le _ _)

/-- The post-collection part of `RankingService.get_ranking`
(src/rankings.py lines 186-230): deduplicate, score by strategy, sort
descending, truncate to `max_items`, assign positional trends, and compute
the total and average of the item scores. -/
def get_ranking_from (allPosts : List Post) (sortBy : Str) (maxItems : ℕ) :
    Option RankingResult := do
  let uniquePosts := dedup_by_title allPosts
  let scored ← uniquePosts.mapM (fun p => do
    let s ← calculate_score p sortBy
    pure (p, s))
  let sorted := sortDescBy (fun ps => ps.2) scored
  let items := (sorted.take maxItems).enum.map (fun ie =>
    let trend := if ie.1 < 3 then str "new"
      else if ie.1 % 2 = 0 then str "up" else str "stable"
    { rank := ie.1 + 1, post := ie.2.1, score := pyRound ie.2.2 2, trend := trend,
      trend_value := if trend = str "up" then (maxItems : ℤ) - (ie.1 : ℤ) else 0 })
  let total : ℚ := (items.map (fun it => it.score)).sum
  pure { ranking_type := sortBy, items := items,
         total_engagement := pyInt total,
         avg_score := pyRound (if items = [] then 0 else total / (items.length : ℚ)) 2 }

/-- A post whose author is the "unknown" sentinel. -/
def pUnknownAuthor : Post :=
  ⟨str "", str "t1", str "", str "未知", str "5", str "0", []⟩

/-- A post whose author is the empty string. -/
def pEmptyAuthor : Post :=
  ⟨str "", str "t2", str "", str "", str "7", str "0", []⟩

/-- A post with zero likes and `-1w` comments. -/
def pNegComments : Post := ⟨str "", str "n1", str "", str "a", str "0", str "-1w", []⟩

/-- The same post with its comment count doubled (`-2w`). -/
def pNegCommentsDoubled : Post := ⟨str "", str "n2", str "", str "a", str "0", str "-2w", []⟩

/-- Concrete ranking example posts with distinct titles and integral
like counts. -/
def pR1 : Post := ⟨str "", str "ra", str "", str "a", str "5", str "0", []⟩
def pR2 : Post := ⟨str "", str "rb", str "", str "a", str "4", str "0", []⟩
def pR3 : Post := ⟨str "", str "rc", str "", str "a", str "3", str "0", []⟩
def pR4 : Post := ⟨str "", str "rd", str "", str "a", str "2", str "0", []⟩
def pR5 : Post := ⟨str "", str "re", str "", str "a", str "1", str "0", []⟩

def exRankPosts : List Post := [pR1, pR2, pR3, pR4, pR5]

/-- The ranking result computed from `exRankPosts` under the
`engagement` strategy with `max_items = 10`. -/
def exRankingResult : RankingResult :=
  ⟨str "engagement",
   [⟨1, pR1, 5, str "new", 0⟩, ⟨2, pR2, 4, str "new", 0⟩, ⟨3, pR3, 3, str "new", 0⟩,
    ⟨4, pR4, 2, str "stable", 0⟩, ⟨5, pR5, 1, str "up", 6⟩],
   15, 3⟩

/-- Hot-word example posts: `bb` occurs 3 times in one post only, `aa`
occurs once in each of two posts. -/
def exHW1 : Post := ⟨str "", str "aa bb bb bb", str "", str "x", str "1", str "0", []⟩
def exHW2 : Post := ⟨str "", str "aa", str "", str "x", str "1", str "0", []⟩
def exHWPosts : List Post := [exHW1, exHW2]
def exHWStats : List (Str × WordStat) :=
  [(str "aa", ⟨2, 2, 2⟩), (str "bb", ⟨3, 3, 1⟩)]

/-- Distribution example: seven posts, one per bucket. -/
def pD1 : Post := ⟨str "", str "d1", str "", str "a", str "0", str "0", []⟩
def pD2 : Post := ⟨str "", str "d2", str "", str "a", str "100", str "0", []⟩
def pD3 : Post := ⟨str "", str "d3", str "", str "a", str "500", str "0", []⟩
def pD4 : Post := ⟨str "", str "d4", str "", str "a", str "1000", str "0", []⟩
def pD5 : Post := ⟨str "", str "d5", str "", str "a", str "5000", str "0", []⟩
def pD6 : Post := ⟨str "", str "d6", str "", str "a", str "10000", str "0", []⟩
def pD7 : Post := ⟨str "", str "d7", str "", str "a", str "50000", str "0", []⟩

def exDistPosts : List Post := [pD1, pD2, pD3, pD4, pD5, pD6, pD7]

def exDistBuckets : List EngagementDistribution :=
  [⟨str "0-100", 1, 143/10, 0⟩, ⟨str "100-500", 1, 143/10, 100⟩,
   ⟨str "500-1k", 1, 143/10, 500⟩, ⟨str "1k-5k", 1, 143/10, 1000⟩,
   ⟨str "5k-1w", 1, 143/10, 5000⟩, ⟨str "1w-5w", 1, 143/10, 10000⟩,
   ⟨str "5w+", 1, 143/10, 50000⟩]

/-- Quality example posts: `pQNeg2` has a negative normalized like count. -/
def pQNeg1 : Post := ⟨str "", str "", str "", str "a", str "1", str "0", []⟩
def pQNeg2 : Post := ⟨str "", str "", str "", str "a", str "-1w", str "0", []⟩

/-- A post whose raw total score is `1819/26 ≈ 69.96`: reported
`total_score` rounds to 70 while the tier is decided on the raw value. -/
def pQX : Post :=
  ⟨str "", str "aaaaaaaaaaaaaaaaaaaaaaaaaaaaaa", str "", str "a", str "10", str "9", []⟩

def pQY : Post := ⟨str "", str "b", str "", str "a", str "1", str "39", []⟩

/-! ## Theorems -/

theorem flo_eq (q : ℚ) : flo q = ⌊q⌋ := by
  rw [flo, Rat.floor_def, Rat.floor_def']

theorem flo_le (q : ℚ) : (flo q : ℚ) ≤ q := by
  rw [flo_eq]; exact Int.floor_le q

theorem lt_flo_add_one (q : ℚ) : q < flo q + 1 := by
  rw [flo_eq]; exact Int.lt_floor_add_one q

theorem flo_nonneg {q : ℚ} (h : 0 ≤ q) : 0 ≤ flo q := by
  rw [flo_eq]; exact Int.floor_nonneg.mpr h

theorem flo_eq_of {q : ℚ} {n : ℤ} (h1 : (n : ℚ) ≤ q) (h2 : q < n + 1) :
    flo q = n := by
  rw [flo_eq]; exact Int.floor_eq_iff.mpr ⟨h1, h2⟩

theorem rhe_le (q : ℚ) : (rhe q : ℚ) ≤ q + 1/2 := by
  rw [rhe]
  split
  · exact le_trans (flo_le q) (by linarith)
  · split
    · push_cast
      have := flo_le q
      linarith [lt_flo_add_one q]
    · split
      · linarith [flo_le q]
      · push_cast
        have h1 : ¬((q : ℚ) - flo q < 1/2) := by assumption
        have h2 : ¬(1/2 < (q : ℚ) - flo q) := by assumption
        have : (q : ℚ) - flo q = 1/2 := le_antisymm (not_lt.mp h2) (not_lt.mp h1)
        linarith

theorem rhe_ge (q : ℚ) : q - 1/2 ≤ (rhe q : ℚ) := by
  rw [rhe]
  split
  · have h1 : (q : ℚ) - flo q < 1/2 := by assumption
    linarith
  · split
    · push_cast; linarith [lt_flo_add_one q]
    · split
      · have h1 : ¬((q : ℚ) - flo q < 1/2) := by assumption
        linarith [not_lt.mp h1]
      · push_cast
        linarith [lt_flo_add_one q]

theorem rhe_nonneg {q : ℚ} (h : 0 ≤ q) : 0 ≤ rhe q := by
  rw [rhe]
  have hf := flo_nonneg h
  split
  · exact hf
  · split
    · omega
    · split
      · exact hf
      · omega

theorem rhe_eq_low (q : ℚ) (n : ℤ) (h1 : (n : ℚ) ≤ q) (h2 : q < n + 1/2) :
    rhe q = n := by
  have hfl : flo q = n := flo_eq_of h1 (by linarith)
  rw [rhe, hfl]
  rw [if_pos (by linarith)]

theorem rhe_eq_high (q : ℚ) (n : ℤ) (h1 : (n : ℚ) + 1/2 < q) (h2 : q < n + 1) :
    rhe q = n + 1 := by
  have hfl : flo q = n := flo_eq_of (by linarith) h2
  rw [rhe, hfl]
  rw [if_neg (by linarith), if_pos (by linarith)]

theorem pyRound_le_1 (q : ℚ) : pyRound q 1 ≤ q + 1/20 := by
  have h := rhe_le (q * 10 ^ 1)
  rw [pyRound]
  rw [div_le_iff₀ (by norm_num)]
  push_cast at h ⊢
  linarith

theorem pyRound_nonneg {q : ℚ} (d : ℕ) (h : 0 ≤ q) : 0 ≤ pyRound q d := by
  rw [pyRound]
  have : (0 : ℤ) ≤ rhe (q * 10 ^ d) :=
    rhe_nonneg (by positivity)
  positivity

theorem pyInt_intCast (n : ℤ) : pyInt (n : ℚ) = n := by
  rw [pyInt]
  split
  · rw [show (-(n : ℚ)) = ((-n : ℤ) : ℚ) by push_cast; ring]
    rw [flo_eq, Int.floor_intCast]; ring
  · rw [flo_eq, Int.floor_intCast]

theorem insertDescBy_perm {α β : Type} [LinearOrder β] (key : α → β) (x : α)
    (l : List α) : (insertDescBy key x l).Perm (x :: l) := by
  induction l with
  | nil => simp [insertDescBy]
  | cons y ys ih =>
    rw [insertDescBy]
    split
    · exact List.Perm.refl _
    · exact (ih.cons y).trans (List.Perm.swap x y ys)

theorem sortDescBy_perm_aux {α β : Type} [LinearOrder β] (key : α → β) :
    ∀ (l acc : List α),
      (l.foldl (fun acc x => insertDescBy key x acc) acc).Perm (acc ++ l)
  | [], acc => by simp
  | x :: xs, acc => by
    rw [List.foldl_cons]
    refine (sortDescBy_perm_aux key xs (insertDescBy key x acc)).trans
      (((insertDescBy_perm key x acc).append_right xs).trans List.perm_middle.symm)

theorem sortDescBy_perm {α β : Type} [LinearOrder β] (key : α → β) (l : List α) :
    (sortDescBy key l).Perm l := by
  simpa [sortDescBy] using sortDescBy_perm_aux key l []

theorem mem_sortDescBy {α β : Type} [LinearOrder β] {key : α → β} {l : List α}
    {a : α} : a ∈ sortDescBy key l ↔ a ∈ l :=
  (sortDescBy_perm key l).mem_iff

theorem mapM_some_length {α β : Type} (f : α → Option β) :
    ∀ (l : List α) (res : List β), l.mapM f = some res → res.length = l.length := by
  intro l
  induction l with
  | nil => intro res h; simp only [List.mapM_nil] at h; cases h; rfl
  | cons a t ih =>
    intro res h
    rw [List.mapM_cons] at h
    cases hfa : f a with
    | none => rw [hfa] at h; simp at h
    | some b =>
      rw [hfa] at h
      cases hml : t.mapM f with
      | none => rw [hml] at h; simp at h
      | some res' =>
        rw [hml] at h
        simp only [Option.bind_eq_bind, Option.some_bind, Option.pure_def, Option.some.injEq] at h
        subst h
        simp [ih res' hml]

theorem mapM_some_mem {α β : Type} (f : α → Option β) :
    ∀ (l : List α) (res : List β), l.mapM f = some res →
      ∀ b ∈ res, ∃ a ∈ l, f a = some b := by
  intro l
  induction l with
  | nil => intro res h b hb; simp only [List.mapM_nil] at h; cases h; simp at hb
  | cons a t ih =>
    intro res h b hb
    rw [List.mapM_cons] at h
    cases hfa : f a with
    | none => rw [hfa] at h; simp at h
    | some b' =>
      rw [hfa] at h
      cases hml : t.mapM f with
      | none => rw [hml] at h; simp at h
      | some res' =>
        rw [hml] at h
        simp only [Option.bind_eq_bind, Option.some_bind, Option.pure_def, Option.some.injEq] at h
        subst h
        rcases List.mem_cons.mp hb with hb | hb
        · exact ⟨a, List.mem_cons_self a t, by rw [hfa, hb]⟩
        · obtain ⟨a', ha', hfa'⟩ := ih res' hml b hb
          exact ⟨a', List.mem_cons_of_mem a ha', hfa'⟩

theorem dedupAux_eq_specDedup :
    ∀ (posts : List Post) (seen : List Str),
      dedupAux seen posts =
        specDedup (posts.filter (fun p => !(seen.contains (titleKey p)))) := by
  intro posts
  induction posts with
  | nil => intro seen; simp [dedupAux, specDedup]
  | cons p ps ih =>
    intro seen
    rw [dedupAux]
    by_cases hc : seen.contains (titleKey p) = true
    · rw [if_pos hc, List.filter_cons]
      have hpred : (!seen.contains (titleKey p)) = false := by rw [hc]; rfl
      simp only [hpred, Bool.false_eq_true, if_false]
      exact ih seen
    · rw [if_neg hc, List.filter_cons]
      have hpred : (!seen.contains (titleKey p)) = true := by
        rw [Bool.eq_false_iff.mpr hc]; rfl
      simp only [hpred, if_true]
      rw [specDedup, ih (titleKey p :: seen), List.filter_filter]
      congr 1
      apply congrArg
      apply List.filter_congr
      intro q _
      by_cases h1 : titleKey q = titleKey p <;>
        by_cases h2 : titleKey q ∈ seen <;>
        simp [List.contains_cons, h1, h2]

/-- C8: deduplication keys each post by the first 30 characters of its
title and keeps, in the original input order, only the first post for each
key: every later post with the same truncated title is dropped.  This is
the specification-style recursion `specDedup`. -/
theorem c8_dedup_first_per_key (posts : List Post) :
    dedup_by_title posts = specDedup posts := by
  rw [dedup_by_title, dedupAux_eq_specDedup posts []]
  congr 1
  simp

theorem runsAux_map (p : Char → Bool) (f : Char → Char)
    (hid : ∀ c, p c = true → f c = c) (hp : ∀ c, p (f c) = p c) :
    ∀ (l : Str) (cur : Str), runsAux p cur (l.map f) = runsAux p cur l := by
  intro l
  induction l with
  | nil => intro cur; simp [runsAux]
  | cons c cs ih =>
    intro cur
    rw [List.map_cons, runsAux, runsAux, hp c]
    by_cases hpc : p c = true
    · simp only [if_pos hpc, hid c hpc, ih]
    · simp only [if_neg hpc, ih]

theorem runs_cleanChar_cjk (text : Str) :
    runs isCJKChar (text.map cleanChar) = runs isCJKChar text := by
  apply runsAux_map
  · intro c hc
    rw [cleanChar, if_pos (by rw [hc]; rfl)]
  · intro c
    rw [cleanChar]
    split
    · rfl
    · rename_i hcond
      have : isCJKChar c = false := by
        revert hcond
        cases isCJKChar c <;> simp
      rw [this]; rfl

theorem runs_cleanChar_alpha (text : Str) :
    runs isAsciiAlphaChar (text.map cleanChar) = runs isAsciiAlphaChar text := by
  apply runsAux_map
  · intro c hc
    rw [cleanChar, if_pos (by rw [hc]; simp)]
  · intro c
    rw [cleanChar]
    split
    · rfl
    · rename_i hcond
      have : isAsciiAlphaChar c = false := by
        revert hcond
        cases isAsciiAlphaChar c <;> simp
      rw [this]; rfl

/-- C5 (amended): the tokenizer first joins all maximal CJK runs into one
string and then emits every window of length 4, 3, then 2 of the joined
string that is not a stop word — so a window may span two distinct runs —
plus every lower-cased ASCII alphabetic run of length at least 2. -/
theorem c5_extract_words_joined_runs (text : Str) :
    extract_words text = specExtractWordsJoined text := by
  by_cases h : text = []
  · subst h
    simp [extract_words, specExtractWordsJoined, runs, runsAux, slidingSlices]
  · rw [extract_words, if_neg h, specExtractWordsJoined]
    simp only [runs_cleanChar_cjk, runs_cleanChar_alpha]

/-- C5 (counterexample): on the input `"东南x西北"`, whose maximal CJK runs
are `"东南"` and `"西北"`, the tokenizer emits the window `"南西"`, which
spans the two runs; under the claim as stated (windows taken within each
run separately) that token would not be emitted. -/
theorem c5_counterexample :
    str "南西" ∈ extract_words (str "东南x西北") ∧
    ¬ str "南西" ∈ claimExtractWordsPerRun (str "东南x西北") ∧
    runs isCJKChar (str "东南x西北") = [str "东南", str "西北"] := by
  refine ⟨?_, ?_, ?_⟩ <;> with_unfolding_all decide

theorem bumpAuthor_keeps (stats : List RegionalAuthorStat) (a : Str) (likes : ℤ)
    (a' : Str) (h : ∃ e ∈ stats, e.author = a') :
    ∃ e ∈ bumpAuthor stats a likes, e.author = a' := by
  obtain ⟨e, he, hea⟩ := h
  rw [bumpAuthor]
  split
  · refine ⟨if e.author = a then
      { e with posts_count := e.posts_count + 1, total_likes := e.total_likes + likes }
      else e, ?_, ?_⟩
    · rw [List.mem_map]
      exact ⟨e, he, by split <;> simp_all⟩
    · split <;> simp_all
  · exact ⟨e, List.mem_append_left _ he, hea⟩

theorem bumpAuthor_adds (stats : List RegionalAuthorStat) (a : Str) (likes : ℤ) :
    ∃ e ∈ bumpAuthor stats a likes, e.author = a := by
  rw [bumpAuthor]
  by_cases hany : stats.any (fun e => e.author = a) = true
  · rw [if_pos hany]
    obtain ⟨e, he, hea⟩ := List.any_eq_true.mp hany
    refine ⟨{ e with posts_count := e.posts_count + 1, total_likes := e.total_likes + likes },
      ?_, ?_⟩
    · rw [List.mem_map]
      refine ⟨e, he, ?_⟩
      rw [if_pos (by simpa using hea)]
    · simpa using hea
  · rw [if_neg hany]
    exact ⟨⟨a, 1, likes⟩, List.mem_append_right _ (by simp), rfl⟩

theorem regional_author_stats_aux :
    ∀ (posts : List Post) (init res : List RegionalAuthorStat),
      (posts.foldlM (fun stats p => do
        let likes ← parse_likes p.likes
        pure (bumpAuthor stats p.author likes)) init) = some res →
      ∀ a' : Str,
        ((∃ e ∈ init, e.author = a') ∨ ∃ p ∈ posts, p.author = a') →
        ∃ e ∈ res, e.author = a' := by
  intro posts
  induction posts with
  | nil =>
    intro init res h a' hcase
    simp only [List.foldlM_nil, Option.pure_def, Option.some.injEq] at h
    subst h
    rcases hcase with h | h
    · exact h
    · simp at h
  | cons p ps ih =>
    intro init res h a' hcase
    rw [List.foldlM_cons] at h
    cases hl : parse_likes p.likes with
    | none => rw [hl] at h; simp at h
    | some likes =>
      rw [hl] at h
      simp only [Option.bind_eq_bind, Option.some_bind, Option.pure_def] at h
      refine ih (bumpAuthor init p.author likes) res h a' ?_
      rcases hcase with hinit | ⟨q, hq, hqa⟩
      · exact Or.inl (bumpAuthor_keeps init p.author likes a' hinit)
      · rcases List.mem_cons.mp hq with rfl | hq'
        · exact Or.inl (hqa ▸ bumpAuthor_adds init q.author likes)
        · exact Or.inr ⟨q, hq', hqa⟩

/-- C4 (amended): the regional per-author aggregation excludes no author
value — every post of the input (the "unknown" sentinel `未知` and the
empty author included) contributes an entry under its own author key in
the per-author totals. -/
theorem c4_no_author_excluded (posts : List Post)
    (stats : List RegionalAuthorStat)
    (h : regional_author_stats posts = some stats) :
    ∀ p ∈ posts, ∃ e ∈ stats, e.author = p.author := by
  intro p hp
  exact regional_author_stats_aux posts [] stats h p.author
    (Or.inr ⟨p, hp, rfl⟩)

/-- C4 (counterexample): with one post authored by the sentinel `未知` and
one with an empty author, both authors appear in the regional per-author
totals and in the top-author list; the claim says such posts are excluded
from both. -/
theorem c4_counterexample :
    regional_author_stats [pUnknownAuthor, pEmptyAuthor] =
      some [⟨str "未知", 1, 5⟩, ⟨str "", 1, 7⟩] ∧
    regional_top_authors [pUnknownAuthor, pEmptyAuthor] =
      some [⟨str "", 1, 7⟩, ⟨str "未知", 1, 5⟩] := by
  have h5 : parse_likes (str "5") = some 5 := by with_unfolding_all decide
  have h7 : parse_likes (str "7") = some 7 := by with_unfolding_all decide
  have hb1 : bumpAuthor [] (str "未知") 5 = [⟨str "未知", 1, 5⟩] := by decide
  have hb2 : bumpAuthor [⟨str "未知", 1, 5⟩] (str "") 7 =
      [⟨str "未知", 1, 5⟩, ⟨str "", 1, 7⟩] := by decide
  have hs : sortDescBy (fun e => e.total_likes)
      [(⟨str "未知", 1, 5⟩ : RegionalAuthorStat), ⟨str "", 1, 7⟩] =
      [⟨str "", 1, 7⟩, ⟨str "未知", 1, 5⟩] := by decide
  constructor
  · simp only [regional_author_stats, pUnknownAuthor, pEmptyAuthor,
      List.foldlM_cons, List.foldlM_nil, h5, h7, Option.bind_eq_bind,
      Option.some_bind, Option.pure_def, hb1, hb2]
  · simp only [regional_top_authors, regional_author_stats, pUnknownAuthor,
      pEmptyAuthor, List.foldlM_cons, List.foldlM_nil, h5, h7,
      Option.bind_eq_bind, Option.some_bind, Option.pure_def, hb1, hb2,
      Option.map_some', hs, List.take]

/-- Witness for `c4_no_author_excluded` at a concrete input containing the
sentinel author. -/
theorem c4_no_author_excluded_witness :
    regional_author_stats [pUnknownAuthor] = some [⟨str "未知", 1, 5⟩] ∧
    pUnknownAuthor ∈ [pUnknownAuthor] ∧
    ∃ e ∈ [(⟨str "未知", 1, 5⟩ : RegionalAuthorStat)],
      e.author = pUnknownAuthor.author := by
  have h5 : parse_likes (str "5") = some 5 := by with_unfolding_all decide
  have hb1 : bumpAuthor [] (str "未知") 5 = [⟨str "未知", 1, 5⟩] := by decide
  have hstats : regional_author_stats [pUnknownAuthor] = some [⟨str "未知", 1, 5⟩] := by
    simp only [regional_author_stats, pUnknownAuthor, List.foldlM_cons,
      List.foldlM_nil, h5, Option.bind_eq_bind, Option.some_bind,
      Option.pure_def, hb1]
  exact ⟨hstats, by decide,
    c4_no_author_excluded [pUnknownAuthor] [⟨str "未知", 1, 5⟩]
      hstats pUnknownAuthor (by decide)⟩

/-- C1: on `"w"` both normalizers raise `ValueError` (`float('')` in the
`w`/`万` branch, which is outside the `try`/`except`), modelled by `none`,
and on `"-1w"` the result is the negative number `-10000`; the claim says
every string input yields a non-negative integer and every parse failure
yields 0.  The regular suffix and digit forms parse as specified. -/
theorem c1_parse_number_divergence :
    parse_number (str "w") = none ∧
    parse_likes (str "w") = none ∧
    parse_number (str "-1w") = some (-10000) ∧
    parse_number (str "2.3w") = some 23000 ∧
    parse_number (str "8.5k") = some 8500 ∧
    parse_number (str "1234") = some 1234 ∧
    parse_number (str "") = some 0 := by
  have hm1 : parseFloat? (str "-1") = some (-1) := by
    simp +decide [parseFloat?, str, natOfDigits]
  have h23 : parseFloat? (str "2.3") = some (23/10) := by
    simp +decide [parseFloat?, str, natOfDigits]
    norm_num
  have h85 : parseFloat? (str "8.5") = some (17/2) := by
    simp +decide [parseFloat?, str, natOfDigits]
    norm_num
  refine ⟨?_, ?_, ?_, ?_, ?_, ?_, ?_⟩
  · with_unfolding_all decide
  · with_unfolding_all decide
  · have h1 : pyStrip (toLowerStr (str "-1w")) = str "-1w" := by decide
    rw [parse_number, if_neg (by decide), h1, parseNumberBody, if_pos (by decide)]
    have h2 : removeAll (str "-1w") ['w', '万'] = str "-1" := by decide
    rw [h2, hm1, Option.map_some']
    have h4 : pyInt ((-1 : ℚ) * 10000) = -10000 := by
      rw [show ((-1 : ℚ) * 10000) = ((-10000 : ℤ) : ℚ) by norm_num, pyInt_intCast]
    rw [h4]
  · have h1 : pyStrip (toLowerStr (str "2.3w")) = str "2.3w" := by decide
    rw [parse_number, if_neg (by decide), h1, parseNumberBody, if_pos (by decide)]
    have h2 : removeAll (str "2.3w") ['w', '万'] = str "2.3" := by decide
    rw [h2, h23, Option.map_some']
    have h4 : pyInt ((23/10 : ℚ) * 10000) = 23000 := by
      rw [show ((23/10 : ℚ) * 10000) = ((23000 : ℤ) : ℚ) by norm_num, pyInt_intCast]
    rw [h4]
  · have h1 : pyStrip (toLowerStr (str "8.5k")) = str "8.5k" := by decide
    rw [parse_number, if_neg (by decide), h1, parseNumberBody,
      if_neg (by decide), if_pos (by decide)]
    have h2 : removeAll (str "8.5k") ['k', '千'] = str "8.5" := by decide
    rw [h2, h85, Option.map_some']
    have h4 : pyInt ((17/2 : ℚ) * 1000) = 8500 := by
      rw [show ((17/2 : ℚ) * 1000) = ((8500 : ℤ) : ℚ) by norm_num, pyInt_intCast]
    rw [h4]
  · with_unfolding_all decide
  · decide

theorem parseFloat_neg1 : parseFloat? (str "-1") = some (-1) := by
  simp +decide [parseFloat?, str, natOfDigits]

theorem parseFloat_neg2 : parseFloat? (str "-2") = some (-2) := by
  simp +decide [parseFloat?, str, natOfDigits]

theorem parse_likes_neg1w : parse_likes (str "-1w") = some (-10000) := by
  rw [parse_likes, if_neg (by decide),
    show toLowerStr (str "-1w") = str "-1w" by decide,
    parseNumberBody, if_pos (by decide),
    show removeAll (str "-1w") ['w', '万'] = str "-1" by decide,
    parseFloat_neg1, Option.map_some',
    show pyInt ((-1 : ℚ) * 10000) = -10000 by
      rw [show ((-1 : ℚ) * 10000) = ((-10000 : ℤ) : ℚ) by norm_num, pyInt_intCast]]

theorem parse_likes_neg2w : parse_likes (str "-2w") = some (-20000) := by
  rw [parse_likes, if_neg (by decide),
    show toLowerStr (str "-2w") = str "-2w" by decide,
    parseNumberBody, if_pos (by decide),
    show removeAll (str "-2w") ['w', '万'] = str "-2" by decide,
    parseFloat_neg2, Option.map_some',
    show pyInt ((-2 : ℚ) * 10000) = -20000 by
      rw [show ((-2 : ℚ) * 10000) = ((-20000 : ℤ) : ℚ) by norm_num, pyInt_intCast]]

/-- The rising-strategy score formula, as an equation usable on any post
whose counts parse. -/
theorem calculate_score_rising (p : Post) (l c : ℤ)
    (hl : parse_likes p.likes = some l) (hc : parse_likes p.comments = some c) :
    calculate_score p (str "rising") = some ((l : ℚ) * (1/2) + (c : ℚ) * 3) := by
  rw [calculate_score, hl, hc]
  simp +decide [str]

/-- C9 (amended): doubling a post's normalized comment count while holding
its normalized like count fixed never decreases its `rising`-strategy
score (`likes*0.5 + comments*3.0`), provided the normalized comment count
is non-negative. -/
theorem c9_rising_double_comments (p q : Post) (lp cp lq cq : ℤ)
    (hlp : parse_likes p.likes = some lp) (hcp : parse_likes p.comments = some cp)
    (hlq : parse_likes q.likes = some lq) (hcq : parse_likes q.comments = some cq)
    (hl : lq = lp) (hc : cq = 2 * cp) (hnn : 0 ≤ cp)
    (sp sq : ℚ)
    (hsp : calculate_score p (str "rising") = some sp)
    (hsq : calculate_score q (str "rising") = some sq) :
    sp ≤ sq := by
  rw [calculate_score_rising p lp cp hlp hcp] at hsp
  rw [calculate_score_rising q lq cq hlq hcq] at hsq
  have hsp' := Option.some.inj hsp
  have hsq' := Option.some.inj hsq
  subst hsp' hsq' hl hc
  have : (0 : ℚ) ≤ (cp : ℚ) := by exact_mod_cast hnn
  push_cast
  linarith

/-- C9 (counterexample): with normalized comments `-10000` (raw `"-1w"`),
doubling the comment count to `-20000` (raw `"-2w"`) while keeping likes
fixed strictly decreases the rising-strategy score from `-30000` to
`-60000`. -/
theorem c9_counterexample :
    parse_likes pNegComments.comments = some (-10000) ∧
    parse_likes pNegCommentsDoubled.comments = some (-20000) ∧
    (-20000 : ℤ) = 2 * (-10000) ∧
    parse_likes pNegComments.likes = some 0 ∧
    parse_likes pNegCommentsDoubled.likes = some 0 ∧
    calculate_score pNegComments (str "rising") = some (-30000) ∧
    calculate_score pNegCommentsDoubled (str "rising") = some (-60000) ∧
    ¬ ((-30000 : ℚ) ≤ (-60000 : ℚ)) := by
  have h0 : parse_likes (str "0") = some 0 := by with_unfolding_all decide
  refine ⟨parse_likes_neg1w, parse_likes_neg2w, by norm_num, h0, h0, ?_, ?_, by norm_num⟩
  · rw [calculate_score_rising pNegComments 0 (-10000) h0 parse_likes_neg1w]
    norm_num
  · rw [calculate_score_rising pNegCommentsDoubled 0 (-20000) h0 parse_likes_neg2w]
    norm_num

/-- Witness for `c9_rising_double_comments` at a concrete input: a post with
5 likes and 3 comments against one with 5 likes and 6 comments. -/
theorem c9_rising_double_comments_witness :
    calculate_score (⟨str "", str "w1", str "", str "a", str "5", str "3", []⟩ : Post)
      (str "rising") = some (23/2) ∧
    calculate_score (⟨str "", str "w2", str "", str "a", str "5", str "6", []⟩ : Post)
      (str "rising") = some (41/2) ∧
    (23/2 : ℚ) ≤ (41/2 : ℚ) := by
  have h5 : parse_likes (str "5") = some 5 := by with_unfolding_all decide
  have h3 : parse_likes (str "3") = some 3 := by with_unfolding_all decide
  have h6 : parse_likes (str "6") = some 6 := by with_unfolding_all decide
  have hA : calculate_score (⟨str "", str "w1", str "", str "a", str "5", str "3", []⟩ : Post)
      (str "rising") = some (23/2) := by
    rw [calculate_score_rising _ 5 3 h5 h3]; norm_num
  have hB : calculate_score (⟨str "", str "w2", str "", str "a", str "5", str "6", []⟩ : Post)
      (str "rising") = some (41/2) := by
    rw [calculate_score_rising _ 5 6 h5 h6]; norm_num
  exact ⟨hA, hB,
    c9_rising_double_comments _ _ 5 3 5 6 h5 h3 h5 h6 rfl (by norm_num) (by norm_num)
      _ _ hA hB⟩

theorem rhe_intCast (n : ℤ) : rhe ((n : ℤ) : ℚ) = n := by
  apply rhe_eq_low ((n : ℤ) : ℚ) n
  · exact le_refl _
  · norm_num

theorem pyRound_intCast (n : ℤ) (d : ℕ) : pyRound ((n : ℤ) : ℚ) d = (n : ℚ) := by
  rw [pyRound, show ((n : ℤ) : ℚ) * 10 ^ d = ((n * 10 ^ d : ℤ) : ℚ) by push_cast; ring,
    rhe_intCast]
  push_cast
  rw [mul_div_assoc]
  norm_num

theorem calculate_score_engagement (p : Post) (l c : ℤ)
    (hl : parse_likes p.likes = some l) (hc : parse_likes p.comments = some c) :
    calculate_score p (str "engagement") = some ((l : ℚ) * 1 + (c : ℚ) * 2) := by
  rw [calculate_score, hl, hc]
  simp +decide [str]

theorem exRanking_eval :
    get_ranking_from exRankPosts (str "engagement") 10 = some exRankingResult := by
  have h0 : parse_likes (str "0") = some 0 := by with_unfolding_all decide
  have h1 : parse_likes (str "1") = some 1 := by with_unfolding_all decide
  have h2 : parse_likes (str "2") = some 2 := by with_unfolding_all decide
  have h3 : parse_likes (str "3") = some 3 := by with_unfolding_all decide
  have h4 : parse_likes (str "4") = some 4 := by with_unfolding_all decide
  have h5 : parse_likes (str "5") = some 5 := by with_unfolding_all decide
  have hs1 : calculate_score pR1 (str "engagement") = some 5 := by
    rw [calculate_score_engagement pR1 5 0 h5 h0]; norm_num
  have hs2 : calculate_score pR2 (str "engagement") = some 4 := by
    rw [calculate_score_engagement pR2 4 0 h4 h0]; norm_num
  have hs3 : calculate_score pR3 (str "engagement") = some 3 := by
    rw [calculate_score_engagement pR3 3 0 h3 h0]; norm_num
  have hs4 : calculate_score pR4 (str "engagement") = some 2 := by
    rw [calculate_score_engagement pR4 2 0 h2 h0]; norm_num
  have hs5 : calculate_score pR5 (str "engagement") = some 1 := by
    rw [calculate_score_engagement pR5 1 0 h1 h0]; norm_num
  have hdd : dedup_by_title exRankPosts = exRankPosts := by decide
  have hmap : exRankPosts.mapM (fun p => do
      let s ← calculate_score p (str "engagement")
      pure (p, s)) = some [(pR1, 5), (pR2, 4), (pR3, 3), (pR4, 2), (pR5, 1)] := by
    simp only [exRankPosts, List.mapM_cons, List.mapM_nil, hs1, hs2, hs3, hs4, hs5,
      Option.bind_eq_bind, Option.some_bind, Option.pure_def]
  have hsort : sortDescBy (fun ps => ps.2)
      [(pR1, (5:ℚ)), (pR2, 4), (pR3, 3), (pR4, 2), (pR5, 1)] =
      [(pR1, 5), (pR2, 4), (pR3, 3), (pR4, 2), (pR5, 1)] := by
    with_unfolding_all decide
  have hr : ∀ n : ℤ, pyRound ((n : ℤ) : ℚ) 2 = (n : ℚ) := fun n => pyRound_intCast n 2
  have hr5 : pyRound (5 : ℚ) 2 = 5 := by
    rw [show (5:ℚ) = ((5:ℤ):ℚ) by norm_num, hr]
  have hr4 : pyRound (4 : ℚ) 2 = 4 := by
    rw [show (4:ℚ) = ((4:ℤ):ℚ) by norm_num, hr]
  have hr3 : pyRound (3 : ℚ) 2 = 3 := by
    rw [show (3:ℚ) = ((3:ℤ):ℚ) by norm_num, hr]
  have hr2 : pyRound (2 : ℚ) 2 = 2 := by
    rw [show (2:ℚ) = ((2:ℤ):ℚ) by norm_num, hr]
  have hr1 : pyRound (1 : ℚ) 2 = 1 := by
    rw [show (1:ℚ) = ((1:ℤ):ℚ) by norm_num, hr]
  have hpi : pyInt (15 : ℚ) = 15 := by
    rw [show (15:ℚ) = ((15:ℤ):ℚ) by norm_num, pyInt_intCast]
  rw [get_ranking_from, hdd, hmap]
  simp only [Option.bind_eq_bind, Option.some_bind, hsort, Option.pure_def,
    Option.some.injEq]
  simp +decide [List.take, List.enum, List.enumFrom, hr5, hr4, hr3, hr2, hr1,
    exRankingResult, str, hpi]
  constructor
  · rw [show (5 + (4 + (3 + (2 + 1))) : ℚ) = ((15 : ℤ) : ℚ) by norm_num, pyInt_intCast]
  · rw [show ((5 + (4 + (3 + (2 + 1))) : ℚ)) / 5 = ((3 : ℤ) : ℚ) by norm_num,
      pyRound_intCast]
    norm_num

theorem enum_map_fst_succ {α : Type} (l : List α) :
    l.enum.map (fun ie => ie.1 + 1) = List.range' 1 l.length := by
  rw [show (fun (ie : ℕ × α) => ie.1 + 1) = (fun i => i + 1) ∘ Prod.fst from rfl,
    ← List.map_map, List.enum_map_fst, List.range'_eq_map_range]
  apply List.map_congr_left
  intro i _
  omega

/-- C7: trend assignment is positional — items at 0-based positions 0-2
(ranks 1-3) are labeled `new`; of the remaining items, those at an even
0-based position (`rank - 1`) get trend `up` with
`trend_value = max_items - position`, and those at an odd position get
trend `stable` with `trend_value = 0`; ranks enumerate positions 1..N. -/
theorem c7_trend_positional (allPosts : List Post) (sortBy : Str) (maxItems : ℕ)
    (r : RankingResult) (h : get_ranking_from allPosts sortBy maxItems = some r) :
    (∀ it ∈ r.items,
      (it.rank ≤ 3 → it.trend = str "new") ∧
      (3 < it.rank → (it.rank - 1) % 2 = 0 →
        it.trend = str "up" ∧ it.trend_value = (maxItems : ℤ) - ((it.rank : ℤ) - 1)) ∧
      (3 < it.rank → (it.rank - 1) % 2 = 1 →
        it.trend = str "stable" ∧ it.trend_value = 0)) ∧
    r.items.map (fun it => it.rank) = List.range' 1 r.items.length := by
  rw [get_ranking_from] at h
  cases hm : (dedup_by_title allPosts).mapM (fun p => do
      let s ← calculate_score p sortBy
      pure (p, s)) with
  | none => rw [hm] at h; simp at h
  | some scored =>
    rw [hm] at h
    simp only [Option.bind_eq_bind, Option.some_bind, Option.pure_def,
      Option.some.injEq] at h
    subst h
    constructor
    · intro it hit
      simp only [List.mem_map] at hit
      obtain ⟨ie, hie, rfl⟩ := hit
      dsimp only
      by_cases h3 : ie.1 < 3
      · rw [if_pos h3]
        refine ⟨fun _ => rfl, fun hgt _ => ?_, fun hgt _ => ?_⟩ <;> omega
      · rw [if_neg h3]
        by_cases hev : ie.1 % 2 = 0
        · rw [if_pos hev]
          refine ⟨fun hle => by omega, fun _ _ => ⟨rfl, ?_⟩, fun _ hodd => by omega⟩
          rw [if_pos rfl]
          push_cast
          ring_nf
        · rw [if_neg hev]
          refine ⟨fun hle => by omega, fun _ hev2 => by omega, fun _ _ => ⟨rfl, ?_⟩⟩
          rw [if_neg (by decide)]
    · dsimp only
      rw [List.map_map]
      rw [show ((fun it => it.rank) ∘ (fun ie =>
        ({ rank := ie.1 + 1, post := ie.2.1, score := pyRound ie.2.2 2,
           trend := if ie.1 < 3 then str "new"
             else if ie.1 % 2 = 0 then str "up" else str "stable",
           trend_value := if (if ie.1 < 3 then str "new"
             else if ie.1 % 2 = 0 then str "up" else str "stable") = str "up"
             then (maxItems : ℤ) - (ie.1 : ℤ) else 0 } : RankingItem))) =
        (fun (ie : ℕ × (Post × ℚ)) => ie.1 + 1) from rfl]
      rw [List.length_map, enum_map_fst_succ, List.enum_length]

/-- C10: the ranking result's `total_engagement` is the integer truncation
of the sum of the emitted items' (strategy, 2-decimal-rounded) scores —
a weighted score total, not a raw likes+comments total — and `avg_score`
is that sum divided by the item count (0 when empty), rounded to 2
decimals. -/
theorem c10_totals (allPosts : List Post) (sortBy : Str) (maxItems : ℕ)
    (r : RankingResult) (h : get_ranking_from allPosts sortBy maxItems = some r) :
    r.total_engagement = pyInt ((r.items.map (fun it => it.score)).sum) ∧
    r.avg_score = pyRound (if r.items = [] then 0 else
      (r.items.map (fun it => it.score)).sum / (r.items.length : ℚ)) 2 := by
  rw [get_ranking_from] at h
  cases hm : (dedup_by_title allPosts).mapM (fun p => do
      let s ← calculate_score p sortBy
      pure (p, s)) with
  | none => rw [hm] at h; simp at h
  | some scored =>
    rw [hm] at h
    simp only [Option.bind_eq_bind, Option.some_bind, Option.pure_def,
      Option.some.injEq] at h
    subst h
    exact ⟨rfl, rfl⟩

/-- Witness for `c7_trend_positional`: on a concrete 5-post ranking the
item at position 4 (rank 5, even) is `up` with `trend_value = 10 - 4`. -/
theorem c7_witness :
    get_ranking_from exRankPosts (str "engagement") 10 = some exRankingResult ∧
    (⟨5, pR5, 1, str "up", 6⟩ : RankingItem) ∈ exRankingResult.items ∧
    (⟨5, pR5, 1, str "up", 6⟩ : RankingItem).trend = str "up" ∧
    (⟨5, pR5, 1, str "up", 6⟩ : RankingItem).trend_value =
      (10 : ℤ) - (((⟨5, pR5, 1, str "up", 6⟩ : RankingItem).rank : ℤ) - 1) := by
  have hmem : (⟨5, pR5, 1, str "up", 6⟩ : RankingItem) ∈ exRankingResult.items := by
    decide
  have h := (c7_trend_positional exRankPosts (str "engagement") 10 exRankingResult
    exRanking_eval).1 _ hmem
  exact ⟨exRanking_eval, hmem, (h.2.1 (by norm_num) (by norm_num)).1,
    (h.2.1 (by norm_num) (by norm_num)).2⟩

/-- Witness for `c10_totals` at a concrete 5-post ranking. -/
theorem c10_witness :
    get_ranking_from exRankPosts (str "engagement") 10 = some exRankingResult ∧
    exRankingResult.total_engagement =
      pyInt ((exRankingResult.items.map (fun it => it.score)).sum) ∧
    exRankingResult.avg_score = pyRound (if exRankingResult.items = [] then 0 else
      (exRankingResult.items.map (fun it => it.score)).sum /
        (exRankingResult.items.length : ℚ)) 2 :=
  ⟨exRanking_eval,
    (c10_totals exRankPosts (str "engagement") 10 exRankingResult exRanking_eval).1,
    (c10_totals exRankPosts (str "engagement") 10 exRankingResult exRanking_eval).2⟩

/-- C2 (amended): every emitted hot word has at-least-2-post support and
weight `round(0.4*count/max_count + 0.6*engagement/max_engagement, 3)`
where both maxima are taken over ALL words of the `word_stats` dictionary
(default 1 when it is empty), not over the ≥2-post-support subset. -/
theorem c2_hot_word_weight (posts : List Post) (topN : ℕ) (out : List HotWord)
    (h : analyze_hot_words posts topN = some out) :
    ∃ ws, word_stats posts = some ws ∧
      ∀ hw ∈ out, ∃ e ∈ ws, hw.word = e.1 ∧ hw.count = e.2.count ∧
        hw.related_posts = e.2.posts ∧ 2 ≤ e.2.posts ∧
        hw.weight = pyRound ((e.2.count : ℚ) / (maxCountAll ws : ℚ) * (2/5) +
          (e.2.engagement : ℚ) / (maxEngagementAll ws : ℚ) * (3/5)) 3 := by
  rw [analyze_hot_words] at h
  cases hws : word_stats posts with
  | none => rw [hws] at h; simp at h
  | some ws =>
    rw [hws] at h
    simp only [Option.bind_eq_bind, Option.some_bind, Option.pure_def,
      Option.some.injEq] at h
    subst h
    refine ⟨ws, rfl, ?_⟩
    intro hw hhw
    have h1 := List.take_subset _ _ hhw
    rw [mem_sortDescBy, List.mem_filterMap] at h1
    obtain ⟨e, he, hge⟩ := h1
    by_cases h2 : 2 ≤ e.2.posts
    · rw [if_pos h2] at hge
      have := Option.some.inj hge
      subst this
      exact ⟨e, he, rfl, rfl, rfl, h2, rfl⟩
    · rw [if_neg h2] at hge; cases hge

theorem c2_stats_eval : word_stats exHWPosts = some exHWStats := by
  have hL1 : parse_number exHW1.likes = some 1 := by with_unfolding_all decide
  have hL2 : parse_number exHW2.likes = some 1 := by with_unfolding_all decide
  have hew1 : extract_words (exHW1.title ++ [' '] ++ exHW1.content) =
      [str "aa", str "bb", str "bb", str "bb"] := by decide
  have hew2 : extract_words (exHW2.title ++ [' '] ++ exHW2.content) = [str "aa"] := by
    decide
  have hpw1 : processPostWords [] [str "aa", str "bb", str "bb", str "bb"] 1 =
      [(str "aa", ⟨1, 1, 1⟩), (str "bb", ⟨3, 3, 1⟩)] := by decide
  have hpw2 : processPostWords [(str "aa", ⟨1, 1, 1⟩), (str "bb", ⟨3, 3, 1⟩)]
      [str "aa"] 1 = exHWStats := by decide
  simp only [word_stats, exHWPosts, List.foldlM_cons, List.foldlM_nil, hL1, hL2,
    Option.bind_eq_bind, Option.some_bind, Option.pure_def, hew1, hew2, hpw1, hpw2]

theorem c2_weight_eval :
    pyRound (((2 : ℕ) : ℚ) / ((3 : ℕ) : ℚ) * (2/5) +
      ((2 : ℤ) : ℚ) / ((3 : ℤ) : ℚ) * (3/5)) 3 = 667/1000 := by
  rw [show (((2 : ℕ) : ℚ) / ((3 : ℕ) : ℚ) * (2/5) +
      ((2 : ℤ) : ℚ) / ((3 : ℤ) : ℚ) * (3/5)) = (2 : ℚ)/3 by push_cast; ring]
  rw [pyRound, show ((2 : ℚ)/3) * 10 ^ 3 = 2000/3 by norm_num]
  rw [rhe_eq_high (2000/3) 666 (by norm_num) (by norm_num)]
  norm_num

theorem c2_eval :
    analyze_hot_words exHWPosts 20 = some [⟨str "aa", 2, 667/1000, 2⟩] := by
  rw [analyze_hot_words, c2_stats_eval]
  simp only [Option.bind_eq_bind, Option.some_bind, Option.pure_def, Option.some.injEq]
  have hmc : maxCountAll exHWStats = 3 := by decide
  have hme : maxEngagementAll exHWStats = 3 := by decide
  rw [hmc, hme]
  simp +decide only [exHWStats, List.filterMap]
  rw [c2_weight_eval]
  with_unfolding_all decide

/-- C2 (counterexample): on `exHWPosts` the word `aa` (count 2,
engagement 2, support 2) is emitted with weight `0.667`, computed against
the maxima 3/3 of the unsupported word `bb`; the claim's formula with
maxima over the scored (≥2-support) set would give weight `1.0`. -/
theorem c2_counterexample :
    word_stats exHWPosts = some exHWStats ∧
    analyze_hot_words exHWPosts 20 = some [⟨str "aa", 2, 667/1000, 2⟩] ∧
    claimMaxCount exHWStats = 2 ∧
    claimMaxEngagement exHWStats = 2 ∧
    ((2 : ℚ) / 2 * (2/5) + (2 : ℚ) / 2 * (3/5)) = 1 ∧
    (667/1000 : ℚ) ≠ 1 ∧
    pyRound ((2 : ℚ) / 2 * (2/5) + (2 : ℚ) / 2 * (3/5)) 3 ≠ (667/1000 : ℚ) := by
  refine ⟨c2_stats_eval, c2_eval, by decide, by decide, by norm_num, by norm_num, ?_⟩
  rw [show ((2 : ℚ) / 2 * (2/5) + (2 : ℚ) / 2 * (3/5)) = ((1 : ℤ) : ℚ) by norm_num,
    pyRound_intCast]
  norm_num

/-- Witness for `c2_hot_word_weight` at the concrete 2-post input. -/
theorem c2_hot_word_weight_witness :
    analyze_hot_words exHWPosts 20 = some [⟨str "aa", 2, 667/1000, 2⟩] ∧
    (∃ ws, word_stats exHWPosts = some ws ∧
      ∀ hw ∈ [(⟨str "aa", 2, 667/1000, 2⟩ : HotWord)], ∃ e ∈ ws, hw.word = e.1 ∧
        hw.count = e.2.count ∧ hw.related_posts = e.2.posts ∧ 2 ≤ e.2.posts ∧
        hw.weight = pyRound ((e.2.count : ℚ) / (maxCountAll ws : ℚ) * (2/5) +
          (e.2.engagement : ℚ) / (maxEngagementAll ws : ℚ) * (3/5)) 3) :=
  ⟨c2_eval, c2_hot_word_weight exHWPosts 20 _ c2_eval⟩

theorem list_sum_map_add {α : Type} {M : Type} [AddCommMonoid M] (l : List α)
    (f g : α → M) :
    (l.map (fun a => f a + g a)).sum = (l.map f).sum + (l.map g).sum := by
  induction l with
  | nil => simp
  | cons a l ih => simp [ih]; abel

theorem list_sum_map_const {α : Type} (l : List α) (c : ℚ) :
    (l.map (fun _ => c)).sum = l.length * c := by
  induction l with
  | nil => simp
  | cons a l ih => simp [ih]; ring

theorem list_sum_map_mul_right {α : Type} (l : List α) (f : α → ℚ) (c : ℚ) :
    (l.map (fun a => f a * c)).sum = (l.map f).sum * c := by
  induction l with
  | nil => simp
  | cons a l ih => simp [ih]; ring

theorem list_sum_nat_cast {α : Type} (l : List α) (f : α → ℕ) :
    (l.map (fun a => ((f a : ℕ) : ℚ))).sum = (((l.map f).sum : ℕ) : ℚ) := by
  induction l with
  | nil => simp
  | cons a l ih => simp [ih]

theorem bucket_indicator_sum_le (o : Option ℕ) :
    (((List.range 7).map (fun j => if o = some j then (1 : ℕ) else 0)).sum) ≤ 1 := by
  show ((([0, 1, 2, 3, 4, 5, 6] : List ℕ).map
    (fun j => if o = some j then (1 : ℕ) else 0)).sum) ≤ 1
  cases o with
  | none => simp
  | some j0 =>
    simp only [List.map_cons, List.map_nil, List.sum_cons, List.sum_nil,
      Option.some.injEq]
    split_ifs <;> omega

theorem bucket_count_sum_le (es : List ℤ) :
    (((List.range 7).map
      (fun j => es.countP (fun e => decide (bucketOf e = some j)))).sum) ≤ es.length := by
  induction es with
  | nil => simp
  | cons e es ih =>
    have hpoint : ∀ j : ℕ, (e :: es).countP (fun e => decide (bucketOf e = some j)) =
        es.countP (fun e => decide (bucketOf e = some j)) +
        (if bucketOf e = some j then 1 else 0) := by
      intro j
      rw [List.countP_cons]
      by_cases hb : bucketOf e = some j <;> simp [hb]
    have hsplit : ((List.range 7).map
        (fun j => (e :: es).countP (fun e => decide (bucketOf e = some j)))).sum =
        ((List.range 7).map
          (fun j => es.countP (fun e => decide (bucketOf e = some j)))).sum +
        ((List.range 7).map (fun j => if bucketOf e = some j then (1 : ℕ) else 0)).sum := by
      simp only [hpoint]
      exact list_sum_map_add (List.range 7) _ _
    rw [hsplit, List.length_cons]
    have := bucket_indicator_sum_le (bucketOf e)
    omega

theorem dist_sum_filterMap (es : List ℤ) (nq : ℚ) :
    ∀ l : List (ℕ × (ℤ × Option ℤ × Str)),
      ((l.filterMap (fun jr =>
        let cnt := es.countP (fun e => decide (bucketOf e = some jr.1))
        if 0 < cnt then
          some ({ range_label := jr.2.2.2, count := cnt,
                  percentage := pyRound ((cnt : ℚ) / nq * 100) 1,
                  total_engagement :=
                    (es.filter (fun e => decide (bucketOf e = some jr.1))).sum }
            : EngagementDistribution)
        else none)).map (fun b => b.percentage)).sum =
      (l.map (fun jr =>
        let cnt := es.countP (fun e => decide (bucketOf e = some jr.1))
        if 0 < cnt then pyRound ((cnt : ℚ) / nq * 100) 1 else 0)).sum := by
  intro l
  induction l with
  | nil => simp
  | cons jr l ih =>
    rw [List.filterMap_cons]
    by_cases hc : 0 < es.countP (fun e => decide (bucketOf e = some jr.1))
    · simp only [if_pos hc, List.map_cons, List.sum_cons, ih]
    · simp only [if_neg hc, List.map_cons, List.sum_cons, ih]
      ring

/-- C3 (amended): for every non-empty post set, the emitted bucket
percentages sum to at most `100.35` (at most 100 plus a rounding excess of
0.05 for each of the at most 7 buckets); the exact bound 100 of the claim
fails because each percentage is rounded half-to-even to one decimal. -/
theorem c3_percentage_sum_bound (posts : List Post)
    (buckets : List EngagementDistribution) (hne : posts ≠ [])
    (h : analyze_engagement_distribution posts = some buckets) :
    (buckets.map (fun b => b.percentage)).sum ≤ 2007/20 := by
  rw [analyze_engagement_distribution, if_neg hne] at h
  cases hm : posts.mapM engagement_of with
  | none => rw [hm] at h; simp at h
  | some es =>
    rw [hm] at h
    simp only [Option.bind_eq_bind, Option.some_bind, Option.pure_def,
      Option.some.injEq] at h
    subst h
    have hlen : es.length = posts.length := mapM_some_length _ _ _ hm
    have hn : 0 < posts.length := List.length_pos.mpr hne
    have hnpos : (0 : ℚ) < (posts.length : ℚ) := by exact_mod_cast hn
    rw [dist_sum_filterMap]
    have hb : ∀ jr ∈ engagementRanges.enum,
        (let cnt := es.countP (fun e => decide (bucketOf e = some jr.1))
         if 0 < cnt then pyRound ((cnt : ℚ) / (posts.length : ℚ) * 100) 1 else 0) ≤
        ((es.countP (fun e => decide (bucketOf e = some jr.1)) : ℚ)) *
          (100 / (posts.length : ℚ)) + 1/20 := by
      intro jr _
      dsimp only
      by_cases hc : 0 < es.countP (fun e => decide (bucketOf e = some jr.1))
      · rw [if_pos hc]
        refine le_trans (pyRound_le_1 _) ?_
        have : ((es.countP (fun e => decide (bucketOf e = some jr.1)) : ℚ)) /
            (posts.length : ℚ) * 100 =
            ((es.countP (fun e => decide (bucketOf e = some jr.1)) : ℚ)) *
            (100 / (posts.length : ℚ)) := by ring
        linarith
      · rw [if_neg hc]
        positivity
    refine le_trans (List.sum_le_sum hb) ?_
    rw [list_sum_map_add, list_sum_map_const, list_sum_map_mul_right]
    have hcast : (engagementRanges.enum.map
        (fun jr => ((es.countP (fun e => decide (bucketOf e = some jr.1)) : ℕ) : ℚ))).sum =
        (((engagementRanges.enum.map
          (fun jr => es.countP (fun e => decide (bucketOf e = some jr.1)))).sum : ℕ) : ℚ) :=
      list_sum_nat_cast _ _
    rw [hcast]
    have hfst : engagementRanges.enum.map
        (fun jr => es.countP (fun e => decide (bucketOf e = some jr.1))) =
        (List.range 7).map (fun j => es.countP (fun e => decide (bucketOf e = some j))) := by
      rw [show (fun (jr : ℕ × (ℤ × Option ℤ × Str)) =>
          es.countP (fun e => decide (bucketOf e = some jr.1))) =
        (fun j => es.countP (fun e => decide (bucketOf e = some j))) ∘ Prod.fst from rfl,
        ← List.map_map, List.enum_map_fst,
        show engagementRanges.length = 7 from rfl]
    rw [hfst]
    have hcount : (((List.range 7).map
        (fun j => es.countP (fun e => decide (bucketOf e = some j)))).sum) ≤
        posts.length := hlen ▸ bucket_count_sum_le es
    have hcountq : ((((List.range 7).map
        (fun j => es.countP (fun e => decide (bucketOf e = some j)))).sum : ℕ) : ℚ) ≤
        (posts.length : ℚ) := by exact_mod_cast hcount
    have hlen7 : (engagementRanges.enum.length : ℚ) = 7 := by
      rw [List.enum_length, show engagementRanges.length = 7 from rfl]
      norm_num
    rw [hlen7]
    have h100 : (posts.length : ℚ) * (100 / (posts.length : ℚ)) = 100 := by
      field_simp
    have hr : (((List.range 7).map
        (fun j => es.countP (fun e => decide (bucketOf e = some j)))).sum : ℚ) *
        (100 / (posts.length : ℚ)) ≤ 100 := by
      calc _ ≤ (posts.length : ℚ) * (100 / (posts.length : ℚ)) := by
              apply mul_le_mul_of_nonneg_right hcountq
              positivity
        _ = 100 := h100
    linarith

theorem c3_pct_eval : pyRound ((1 : ℚ) / 7 * 100) 1 = 143/10 := by
  rw [pyRound, show ((1 : ℚ) / 7 * 100) * 10 ^ 1 = 1000/7 by norm_num,
    rhe_eq_high (1000/7) 142 (by norm_num) (by norm_num)]
  norm_num

example : pyStrip (toLowerStr (str "50000")) = str "50000" := by decide
example : natOfDigits (str "50000") = 50000 := by decide
example : (str "50000").filter isDigitChar = str "50000" := by decide
example : parse_number (str "5") = some 5 := by decide
example : parseNumberBody (str "50000") = some 50000 := by decide
theorem c3_eval :
    analyze_engagement_distribution exDistPosts = some exDistBuckets := by
  have hE1 : engagement_of pD1 = some 0 := by
    have h1 : parse_number pD1.likes = some 0 := by decide
    have h2 : parse_number pD1.comments = some 0 := by decide
    simp only [engagement_of, h1, h2, Option.bind_eq_bind, Option.some_bind,
      Option.pure_def]
    norm_num
  have hE2 : engagement_of pD2 = some 100 := by
    have h1 : parse_number pD2.likes = some 100 := by decide
    have h2 : parse_number pD2.comments = some 0 := by decide
    simp only [engagement_of, h1, h2, Option.bind_eq_bind, Option.some_bind,
      Option.pure_def]
    norm_num
  have hE3 : engagement_of pD3 = some 500 := by
    have h1 : parse_number pD3.likes = some 500 := by decide
    have h2 : parse_number pD3.comments = some 0 := by decide
    simp only [engagement_of, h1, h2, Option.bind_eq_bind, Option.some_bind,
      Option.pure_def]
    norm_num
  have hE4 : engagement_of pD4 = some 1000 := by
    have h1 : parse_number pD4.likes = some 1000 := by decide
    have h2 : parse_number pD4.comments = some 0 := by decide
    simp only [engagement_of, h1, h2, Option.bind_eq_bind, Option.some_bind,
      Option.pure_def]
    norm_num
  have hE5 : engagement_of pD5 = some 5000 := by
    have h1 : parse_number pD5.likes = some 5000 := by decide
    have h2 : parse_number pD5.comments = some 0 := by decide
    simp only [engagement_of, h1, h2, Option.bind_eq_bind, Option.some_bind,
      Option.pure_def]
    norm_num
  have hE6 : engagement_of pD6 = some 10000 := by
    have h1 : parse_number pD6.likes = some 10000 := by decide
    have h2 : parse_number pD6.comments = some 0 := by decide
    simp only [engagement_of, h1, h2, Option.bind_eq_bind, Option.some_bind,
      Option.pure_def]
    norm_num
  have hE7 : engagement_of pD7 = some 50000 := by
    have h1 : parse_number pD7.likes = some 50000 := by decide
    have h2 : parse_number pD7.comments = some 0 := by decide
    simp only [engagement_of, h1, h2, Option.bind_eq_bind, Option.some_bind,
      Option.pure_def]
    norm_num
  have hmap : exDistPosts.mapM engagement_of =
      some [0, 100, 500, 1000, 5000, 10000, 50000] := by
    simp only [exDistPosts, List.mapM_cons, List.mapM_nil, hE1, hE2, hE3, hE4,
      hE5, hE6, hE7, Option.bind_eq_bind, Option.some_bind, Option.pure_def]
  have hc : ∀ j : ℕ, j < 7 →
      ([0, 100, 500, 1000, 5000, 10000, 50000] : List ℤ).countP
        (fun e => decide (bucketOf e = some j)) = 1 := by decide
  have hf0 : ([0, 100, 500, 1000, 5000, 10000, 50000] : List ℤ).filter
      (fun e => decide (bucketOf e = some 0)) = [0] := by decide
  have hf1 : ([0, 100, 500, 1000, 5000, 10000, 50000] : List ℤ).filter
      (fun e => decide (bucketOf e = some 1)) = [100] := by decide
  have hf2 : ([0, 100, 500, 1000, 5000, 10000, 50000] : List ℤ).filter
      (fun e => decide (bucketOf e = some 2)) = [500] := by decide
  have hf3 : ([0, 100, 500, 1000, 5000, 10000, 50000] : List ℤ).filter
      (fun e => decide (bucketOf e = some 3)) = [1000] := by decide
  have hf4 : ([0, 100, 500, 1000, 5000, 10000, 50000] : List ℤ).filter
      (fun e => decide (bucketOf e = some 4)) = [5000] := by decide
  have hf5 : ([0, 100, 500, 1000, 5000, 10000, 50000] : List ℤ).filter
      (fun e => decide (bucketOf e = some 5)) = [10000] := by decide
  have hf6 : ([0, 100, 500, 1000, 5000, 10000, 50000] : List ℤ).filter
      (fun e => decide (bucketOf e = some 6)) = [50000] := by decide
  have hlen : ((exDistPosts.length : ℕ) : ℚ) = 7 := by
    rw [show exDistPosts.length = 7 from rfl]
    norm_num
  rw [analyze_engagement_distribution, if_neg (by decide), hmap]
  simp only [Option.bind_eq_bind, Option.some_bind, Option.pure_def,
    Option.some.injEq]
  rw [show engagementRanges.enum =
    [(0, (0, some 100, str "0-100")), (1, (100, some 500, str "100-500")),
     (2, (500, some 1000, str "500-1k")), (3, (1000, some 5000, str "1k-5k")),
     (4, (5000, some 10000, str "5k-1w")), (5, (10000, some 50000, str "1w-5w")),
     (6, (50000, none, str "5w+"))] from rfl]
  simp only [List.filterMap_cons, hc 0 (by norm_num), hc 1 (by norm_num),
    hc 2 (by norm_num), hc 3 (by norm_num), hc 4 (by norm_num), hc 5 (by norm_num),
    hc 6 (by norm_num), hf0, hf1, hf2, hf3, hf4, hf5, hf6, List.filterMap_nil,
    hlen, Nat.cast_one, c3_pct_eval, List.sum_cons, List.sum_nil, exDistBuckets]
  norm_num

/-- C3 (counterexample): seven posts falling one into each bucket give
seven percentages of `round(100/7, 1) = 14.3`, which sum to `100.1 > 100`. -/
theorem c3_counterexample :
    analyze_engagement_distribution exDistPosts = some exDistBuckets ∧
    (exDistBuckets.map (fun b => b.percentage)).sum = 1001/10 ∧
    ¬ ((1001/10 : ℚ) ≤ 100) := by
  refine ⟨c3_eval, ?_, by norm_num⟩
  simp only [exDistBuckets, List.map_cons, List.map_nil, List.sum_cons, List.sum_nil]
  norm_num

/-- Witness for `c3_percentage_sum_bound` at the concrete 7-post input. -/
theorem c3_percentage_sum_bound_witness :
    exDistPosts ≠ [] ∧
    analyze_engagement_distribution exDistPosts = some exDistBuckets ∧
    (exDistBuckets.map (fun b => b.percentage)).sum ≤ 2007/20 :=
  ⟨by decide, c3_eval,
    c3_percentage_sum_bound exDistPosts exDistBuckets (by decide) c3_eval⟩

theorem quality_parsed_inv (posts : List Post) (parsed : List (Post × ℤ × ℤ))
    (hm : posts.mapM (fun p => do
        let l ← parse_number p.likes
        let c ← parse_number p.comments
        pure (p, l, c)) = some parsed) :
    ∀ t ∈ parsed, t.1 ∈ posts ∧ parse_number t.1.likes = some t.2.1 ∧
      parse_number t.1.comments = some t.2.2 := by
  intro t ht
  obtain ⟨p, hp, hfp⟩ := mapM_some_mem _ posts parsed hm t ht
  cases hl : parse_number p.likes with
  | none => rw [hl] at hfp; simp at hfp
  | some l =>
    rw [hl] at hfp
    cases hc : parse_number p.comments with
    | none => rw [hc] at hfp; simp at hfp
    | some c =>
      rw [hc] at hfp
      simp only [Option.bind_eq_bind, Option.some_bind, Option.pure_def,
        Option.some.injEq] at hfp
      subst hfp
      exact ⟨hp, by rw [hl], by rw [hc]⟩

theorem max_getD_nonneg (z : List ℤ) (h : ∀ x ∈ z, 0 ≤ x) : 0 ≤ (z.max?).getD 0 := by
  cases hm : z.max? with
  | none => simp
  | some m =>
    simp only [Option.getD_some]
    exact h m (List.max?_mem max_choice hm)

theorem orOne_pos (z : ℤ) (h : 0 ≤ z) : 1 ≤ orOne z := by
  rw [orOne]
  split <;> omega

theorem rawEngagementScore_nonneg (maxL maxC l c : ℤ) (hL : 1 ≤ maxL) (hC : 1 ≤ maxC)
    (hl : 0 ≤ l) (hc : 0 ≤ c) : 0 ≤ rawEngagementScore maxL maxC l c := by
  rw [rawEngagementScore]
  have h1 : (0 : ℚ) < (maxL : ℚ) := by exact_mod_cast lt_of_lt_of_le one_pos hL
  have h2 : (0 : ℚ) < (maxC : ℚ) := by exact_mod_cast lt_of_lt_of_le one_pos hC
  have h3 : (0 : ℚ) ≤ (l : ℚ) := by exact_mod_cast hl
  have h4 : (0 : ℚ) ≤ (c : ℚ) := by exact_mod_cast hc
  have := div_nonneg h3 (le_of_lt h1)
  have := div_nonneg h4 (le_of_lt h2)
  nlinarith

theorem rawContentScore_nonneg (p : Post) : 0 ≤ rawContentScore p := by
  rw [rawContentScore]
  have t1 : (0 : ℚ) ≤ min ((p.title.length : ℚ) / 30) 1 * 15 := by
    apply mul_nonneg _ (by norm_num)
    exact le_min (by positivity) (by norm_num)
  have t2 : (0 : ℚ) ≤ min (((p.title.length + p.content.length : ℕ) : ℚ) / 200) 1 * 10 := by
    apply mul_nonneg _ (by norm_num)
    exact le_min (by positivity) (by norm_num)
  have t3 : (0 : ℚ) ≤ min ((((p.title ++ p.content).filter isEmojiChar).length : ℚ) * (1/2)) 5 :=
    le_min (by positivity) (by norm_num)
  have t4 : (0 : ℚ) ≤ min ((p.tags.length : ℚ) * (3/2)) 5 :=
    le_min (by positivity) (by norm_num)
  linarith

theorem rawAuthorScore_nonneg (l c : ℤ) (hl : 0 ≤ l) (hc : 0 ≤ c) :
    0 ≤ rawAuthorScore l c := by
  rw [rawAuthorScore]
  apply le_min _ (by norm_num)
  apply mul_nonneg _ (by norm_num)
  apply div_nonneg
  · have h3 : (0 : ℚ) ≤ (l : ℚ) := by exact_mod_cast hl
    have h4 : (0 : ℚ) ≤ (c : ℚ) := by exact_mod_cast hc
    linarith
  · have : (1 : ℤ) ≤ max 1 (l + 1) := le_max_left _ _
    exact_mod_cast le_trans (by norm_num) this

theorem mkQualityScore_viral (maxL maxC : ℤ) (p : Post) (l c : ℤ) :
    ((mkQualityScore maxL maxC p l c).viral_potential = str "high" ↔
      70 ≤ rawTotalScore maxL maxC p l c) ∧
    ((mkQualityScore maxL maxC p l c).viral_potential = str "medium" ↔
      (45 ≤ rawTotalScore maxL maxC p l c ∧ rawTotalScore maxL maxC p l c < 70)) ∧
    ((mkQualityScore maxL maxC p l c).viral_potential = str "low" ↔
      rawTotalScore maxL maxC p l c < 45) := by
  rw [mkQualityScore]
  dsimp only
  by_cases h70 : 70 ≤ rawTotalScore maxL maxC p l c
  · rw [if_pos h70]
    refine ⟨⟨fun _ => h70, fun _ => rfl⟩, ?_, ?_⟩
    · constructor
      · intro hme; exact absurd hme (by decide)
      · rintro ⟨-, hlt⟩; exact absurd h70 (not_le.mpr hlt)
    · constructor
      · intro hlo; exact absurd hlo (by decide)
      · intro hlt; exact absurd h70 (not_le.mpr (by linarith))
  · rw [if_neg h70]
    by_cases h45 : 45 ≤ rawTotalScore maxL maxC p l c
    · rw [if_pos h45]
      refine ⟨?_, ⟨fun _ => ⟨h45, not_le.mp h70⟩, fun _ => rfl⟩, ?_⟩
      · constructor
        · intro hh; exact absurd hh (by decide)
        · intro hge; exact absurd hge h70
      · constructor
        · intro hlo; exact absurd hlo (by decide)
        · intro hlt; exact absurd h45 (not_le.mpr hlt)
    · rw [if_neg h45]
      refine ⟨?_, ?_, ⟨fun _ => not_le.mp h45, fun _ => rfl⟩⟩
      · constructor
        · intro hh; exact absurd hh (by decide)
        · intro hge; exact absurd hge (by intro hge2; exact h45 (by linarith))
      · constructor
        · intro hme; exact absurd hme (by decide)
        · rintro ⟨hge, -⟩; exact absurd hge h45

/-- C6 (amended): provided every post's normalized like and comment counts
are non-negative, the emitted sub-scores `engagement_score`,
`content_score` and `author_score` are never negative; and each emitted
record is `mkQualityScore` of its post with `viral_potential` equal to
`high`/`medium`/`low` exactly according to the UNROUNDED total score
(thresholds 70 and 45) — the tiers are exhaustive and mutually exclusive
over the raw total, not over the 1-decimal-rounded reported
`total_score`. -/
theorem c6_quality_scores (posts : List Post) (out : List QualityScore)
    (h : calculate_quality_scores posts = some out)
    (hnn : ∀ p ∈ posts, ∀ l c : ℤ, parse_number p.likes = some l →
      parse_number p.comments = some c → 0 ≤ l ∧ 0 ≤ c) :
    ∀ q ∈ out,
      0 ≤ q.engagement_score ∧ 0 ≤ q.content_score ∧ 0 ≤ q.author_score ∧
      ∃ (maxL maxC : ℤ) (p : Post) (l c : ℤ), p ∈ posts ∧
        parse_number p.likes = some l ∧ parse_number p.comments = some c ∧
        1 ≤ maxL ∧ 1 ≤ maxC ∧ q = mkQualityScore maxL maxC p l c ∧
        (q.viral_potential = str "high" ↔ 70 ≤ rawTotalScore maxL maxC p l c) ∧
        (q.viral_potential = str "medium" ↔
          (45 ≤ rawTotalScore maxL maxC p l c ∧ rawTotalScore maxL maxC p l c < 70)) ∧
        (q.viral_potential = str "low" ↔ rawTotalScore maxL maxC p l c < 45) := by
  intro q hq
  rw [calculate_quality_scores] at h
  by_cases hne : posts = []
  · rw [if_pos hne] at h
    have : out = [] := (Option.some.inj h).symm
    subst this
    simp at hq
  · rw [if_neg hne] at h
    cases hm : posts.mapM (fun p => do
        let l ← parse_number p.likes
        let c ← parse_number p.comments
        pure (p, l, c)) with
    | none => rw [hm] at h; simp at h
    | some parsed =>
      rw [hm] at h
      simp only [Option.bind_eq_bind, Option.some_bind, Option.pure_def,
        Option.some.injEq] at h
      subst h
      rw [mem_sortDescBy, List.mem_map] at hq
      obtain ⟨t, ht, rfl⟩ := hq
      obtain ⟨hp, hlt, hct⟩ := quality_parsed_inv posts parsed hm t ht
      obtain ⟨hl0, hc0⟩ := hnn t.1 hp t.2.1 t.2.2 hlt hct
      have hmaxL : 1 ≤ orOne (((parsed.map (fun t => t.2.1)).max?).getD 0) := by
        apply orOne_pos
        apply max_getD_nonneg
        intro x hx
        rw [List.mem_map] at hx
        obtain ⟨t', ht', rfl⟩ := hx
        obtain ⟨hp', hlt', hct'⟩ := quality_parsed_inv posts parsed hm t' ht'
        exact (hnn t'.1 hp' t'.2.1 t'.2.2 hlt' hct').1
      have hmaxC : 1 ≤ orOne (((parsed.map (fun t => t.2.2)).max?).getD 0) := by
        apply orOne_pos
        apply max_getD_nonneg
        intro x hx
        rw [List.mem_map] at hx
        obtain ⟨t', ht', rfl⟩ := hx
        obtain ⟨hp', hlt', hct'⟩ := quality_parsed_inv posts parsed hm t' ht'
        exact (hnn t'.1 hp' t'.2.1 t'.2.2 hlt' hct').2
      set mL := orOne (((parsed.map (fun t => t.2.1)).max?).getD 0) with hmLdef
      set mC := orOne (((parsed.map (fun t => t.2.2)).max?).getD 0) with hmCdef
      have he : (mkQualityScore mL mC t.1 t.2.1 t.2.2).engagement_score =
          pyRound (rawEngagementScore mL mC t.2.1 t.2.2) 1 := rfl
      have hco : (mkQualityScore mL mC t.1 t.2.1 t.2.2).content_score =
          pyRound (rawContentScore t.1) 1 := rfl
      have hau : (mkQualityScore mL mC t.1 t.2.1 t.2.2).author_score =
          pyRound (rawAuthorScore t.2.1 t.2.2) 1 := rfl
      refine ⟨?_, ?_, ?_, mL, mC, t.1, t.2.1, t.2.2,
        hp, hlt, hct, hmaxL, hmaxC, rfl, mkQualityScore_viral _ _ _ _ _⟩
      · rw [he]
        exact pyRound_nonneg 1
          (rawEngagementScore_nonneg _ _ _ _ hmaxL hmaxC hl0 hc0)
      · rw [hco]
        exact pyRound_nonneg 1 (rawContentScore_nonneg _)
      · rw [hau]
        exact pyRound_nonneg 1 (rawAuthorScore_nonneg _ _ hl0 hc0)

theorem parse_number_neg1w : parse_number (str "-1w") = some (-10000) := by
  rw [parse_number, if_neg (by decide),
    show pyStrip (toLowerStr (str "-1w")) = str "-1w" by decide,
    parseNumberBody, if_pos (by decide),
    show removeAll (str "-1w") ['w', '万'] = str "-1" by decide,
    parseFloat_neg1, Option.map_some',
    show pyInt ((-1 : ℚ) * 10000) = -10000 by
      rw [show ((-1 : ℚ) * 10000) = ((-10000 : ℤ) : ℚ) by norm_num, pyInt_intCast]]

theorem pyRound_ofInt (a : ℚ) (n : ℤ) (h : a = (n : ℚ)) (d : ℕ) :
    pyRound a d = a := by
  rw [h, pyRound_intCast]

theorem qneg2_mk : mkQualityScore 1 1 pQNeg2 (-10000) 0 =
    ⟨str "", str "", -350000, -250000, 0, -100000, str "low"⟩ := by
  have hE : rawEngagementScore 1 1 (-10000) 0 = -250000 := by
    rw [rawEngagementScore]; norm_num
  have hC : rawContentScore pQNeg2 = 0 := by
    rw [rawContentScore]
    norm_num [pQNeg2, str, min_def, isEmojiChar]
  have hA : rawAuthorScore (-10000) 0 = -100000 := by
    rw [rawAuthorScore]
    rw [show max (1 : ℤ) (-10000 + 1) = 1 by norm_num [max_def]]
    rw [min_def]
    norm_num
  have hT : rawTotalScore 1 1 pQNeg2 (-10000) 0 = -350000 := by
    rw [rawTotalScore, hE, hC, hA]; norm_num
  rw [mkQualityScore, rawTotalScore, hE, hC, hA]
  rw [show (-250000 : ℚ) + 0 + -100000 = -350000 by norm_num]
  rw [pyRound_ofInt (-350000) (-350000) (by norm_num) 1,
    pyRound_ofInt (-250000) (-250000) (by norm_num) 1,
    pyRound_ofInt 0 0 (by norm_num) 1,
    pyRound_ofInt (-100000) (-100000) (by norm_num) 1]
  rw [if_neg (by norm_num), if_neg (by norm_num)]
  simp only [QualityScore.mk.injEq, and_true, true_and]
  exact ⟨by decide, by decide⟩

theorem qneg1_mk : mkQualityScore 1 1 pQNeg1 1 0 =
    ⟨str "", str "", 30, 25, 0, 5, str "low"⟩ := by
  have hE : rawEngagementScore 1 1 1 0 = 25 := by
    rw [rawEngagementScore]; norm_num
  have hC : rawContentScore pQNeg1 = 0 := by
    rw [rawContentScore]
    norm_num [pQNeg1, str, min_def, isEmojiChar]
  have hA : rawAuthorScore 1 0 = 5 := by
    rw [rawAuthorScore]
    rw [show max (1 : ℤ) (1 + 1) = 2 by norm_num [max_def]]
    rw [min_def]
    norm_num
  rw [mkQualityScore, rawTotalScore, hE, hC, hA]
  rw [show (25 : ℚ) + 0 + 5 = 30 by norm_num]
  rw [pyRound_ofInt 30 30 (by norm_num) 1,
    pyRound_ofInt 25 25 (by norm_num) 1,
    pyRound_ofInt 0 0 (by norm_num) 1,
    pyRound_ofInt 5 5 (by norm_num) 1]
  rw [if_neg (by norm_num), if_neg (by norm_num)]
  simp only [QualityScore.mk.injEq, and_true, true_and]
  exact ⟨by decide, by decide⟩

theorem rhe_eq_tie (q : ℚ) (n : ℤ) (h : q = (n : ℚ) + 1/2) :
    rhe q = if n % 2 = 0 then n else n + 1 := by
  have hfl : flo q = n := flo_eq_of (by rw [h]; linarith) (by rw [h]; linarith)
  rw [rhe, hfl]
  rw [if_neg (by rw [h]; linarith), if_neg (by rw [h]; linarith)]

theorem qx_mk : mkQualityScore 10 39 pQX 10 9 =
    ⟨str "", str "aaaaaaaaaaaaaaaaaaaaaaaaaaaaaa", 70, 57/2, 33/2, 25, str "medium"⟩ := by
  have hE : rawEngagementScore 10 39 10 9 = 370/13 := by
    rw [rawEngagementScore]; norm_num
  have hC : rawContentScore pQX = 33/2 := by
    have h1 : pQX.title.length = 30 := by decide
    have h2 : pQX.content.length = 0 := by decide
    have h3 : ((pQX.title ++ pQX.content).filter isEmojiChar).length = 0 := by decide
    have h4 : pQX.tags.length = 0 := by decide
    rw [rawContentScore, h1, h2, h3, h4]
    norm_num [min_def]
  have hA : rawAuthorScore 10 9 = 25 := by
    rw [rawAuthorScore]
    rw [show max (1 : ℤ) (10 + 1) = 11 by norm_num [max_def]]
    rw [min_def]
    norm_num
  have hT : rawTotalScore 10 39 pQX 10 9 = 1819/26 := by
    rw [rawTotalScore, hE, hC, hA]; norm_num
  have hr1 : pyRound (1819/26 : ℚ) 1 = 70 := by
    rw [pyRound, show ((1819 : ℚ)/26) * 10 ^ 1 = 9095/13 by norm_num,
      rhe_eq_high (9095/13) 699 (by norm_num) (by norm_num)]
    norm_num
  have hr2 : pyRound (370/13 : ℚ) 1 = 57/2 := by
    rw [pyRound, show ((370 : ℚ)/13) * 10 ^ 1 = 3700/13 by norm_num,
      rhe_eq_high (3700/13) 284 (by norm_num) (by norm_num)]
    norm_num
  have hr3 : pyRound (33/2 : ℚ) 1 = 33/2 := by
    rw [pyRound, show ((33 : ℚ)/2) * 10 ^ 1 = ((165 : ℤ) : ℚ) by norm_num, rhe_intCast]
    norm_num
  have hr4 : pyRound (25 : ℚ) 1 = 25 := pyRound_ofInt 25 25 (by norm_num) 1
  rw [mkQualityScore, rawTotalScore, hE, hC, hA]
  rw [show (370/13 : ℚ) + 33/2 + 25 = 1819/26 by norm_num]
  rw [hr1, hr2, hr3, hr4]
  rw [if_neg (by norm_num), if_pos (by norm_num)]
  simp only [QualityScore.mk.injEq, and_true, true_and]
  exact ⟨by decide, by decide⟩

theorem qy_mk : mkQualityScore 10 39 pQY 1 39 =
    ⟨str "", str "b", 43, 35/2, 3/5, 25, str "low"⟩ := by
  have hE : rawEngagementScore 10 39 1 39 = 35/2 := by
    rw [rawEngagementScore]; norm_num
  have hC : rawContentScore pQY = 11/20 := by
    have h1 : pQY.title.length = 1 := by decide
    have h2 : pQY.content.length = 0 := by decide
    have h3 : ((pQY.title ++ pQY.content).filter isEmojiChar).length = 0 := by decide
    have h4 : pQY.tags.length = 0 := by decide
    rw [rawContentScore, h1, h2, h3, h4]
    norm_num [min_def]
  have hA : rawAuthorScore 1 39 = 25 := by
    rw [rawAuthorScore]
    rw [show max (1 : ℤ) (1 + 1) = 2 by norm_num [max_def]]
    rw [min_def]
    norm_num
  have hT : rawTotalScore 10 39 pQY 1 39 = 861/20 := by
    rw [rawTotalScore, hE, hC, hA]; norm_num
  have hr1 : pyRound (861/20 : ℚ) 1 = 43 := by
    rw [pyRound, show ((861 : ℚ)/20) * 10 ^ 1 = ((430 : ℤ) : ℚ) + 1/2 by norm_num,
      rhe_eq_tie (((430 : ℤ) : ℚ) + 1/2) 430 rfl]
    norm_num
  have hr2 : pyRound (35/2 : ℚ) 1 = 35/2 := by
    rw [pyRound, show ((35 : ℚ)/2) * 10 ^ 1 = ((175 : ℤ) : ℚ) by norm_num, rhe_intCast]
    norm_num
  have hr3 : pyRound (11/20 : ℚ) 1 = 3/5 := by
    rw [pyRound, show ((11 : ℚ)/20) * 10 ^ 1 = ((5 : ℤ) : ℚ) + 1/2 by norm_num,
      rhe_eq_tie (((5 : ℤ) : ℚ) + 1/2) 5 rfl]
    norm_num
  have hr4 : pyRound (25 : ℚ) 1 = 25 := pyRound_ofInt 25 25 (by norm_num) 1
  rw [mkQualityScore, rawTotalScore, hE, hC, hA]
  rw [show (35/2 : ℚ) + 11/20 + 25 = 861/20 by norm_num]
  rw [hr1, hr2, hr3, hr4]
  rw [if_neg (by norm_num), if_neg (by norm_num)]
  simp only [QualityScore.mk.injEq, and_true, true_and]
  exact ⟨by decide, by decide⟩

theorem cqneg_eval :
    calculate_quality_scores [pQNeg1, pQNeg2] =
      some [⟨str "", str "", 30, 25, 0, 5, str "low"⟩,
            ⟨str "", str "", -350000, -250000, 0, -100000, str "low"⟩] := by
  have hL1 : parse_number pQNeg1.likes = some 1 := by decide
  have hC1 : parse_number pQNeg1.comments = some 0 := by decide
  have hL2 : parse_number pQNeg2.likes = some (-10000) := parse_number_neg1w
  have hC2 : parse_number pQNeg2.comments = some 0 := by decide
  have hmap : [pQNeg1, pQNeg2].mapM (fun p => do
      let l ← parse_number p.likes
      let c ← parse_number p.comments
      pure (p, l, c)) = some [(pQNeg1, 1, 0), (pQNeg2, -10000, 0)] := by
    simp only [List.mapM_cons, List.mapM_nil, hL1, hC1, hL2, hC2,
      Option.bind_eq_bind, Option.some_bind, Option.pure_def]
  rw [calculate_quality_scores, if_neg (by decide), hmap]
  simp only [Option.bind_eq_bind, Option.some_bind, Option.pure_def,
    Option.some.injEq, List.map_cons, List.map_nil]
  rw [show orOne ((([((1 : ℤ), (0 : ℤ)).1, ((-10000 : ℤ), (0 : ℤ)).1].max?).getD 0)) = 1
    from by decide]
  rw [show orOne (([(0 : ℤ), (0 : ℤ)].max?).getD 0) = 1 from by decide]
  rw [qneg1_mk, qneg2_mk]
  rw [sortDescBy, List.foldl_cons, List.foldl_cons, List.foldl_nil,
    insertDescBy, insertDescBy]
  rw [if_neg (by norm_num), insertDescBy]

theorem cqround_eval :
    calculate_quality_scores [pQX, pQY] =
      some [⟨str "", str "aaaaaaaaaaaaaaaaaaaaaaaaaaaaaa", 70, 57/2, 33/2, 25,
              str "medium"⟩,
            ⟨str "", str "b", 43, 35/2, 3/5, 25, str "low"⟩] := by
  have hL1 : parse_number pQX.likes = some 10 := by decide
  have hC1 : parse_number pQX.comments = some 9 := by decide
  have hL2 : parse_number pQY.likes = some 1 := by decide
  have hC2 : parse_number pQY.comments = some 39 := by decide
  have hmap : [pQX, pQY].mapM (fun p => do
      let l ← parse_number p.likes
      let c ← parse_number p.comments
      pure (p, l, c)) = some [(pQX, 10, 9), (pQY, 1, 39)] := by
    simp only [List.mapM_cons, List.mapM_nil, hL1, hC1, hL2, hC2,
      Option.bind_eq_bind, Option.some_bind, Option.pure_def]
  rw [calculate_quality_scores, if_neg (by decide), hmap]
  simp only [Option.bind_eq_bind, Option.some_bind, Option.pure_def,
    Option.some.injEq, List.map_cons, List.map_nil]
  rw [show orOne ((([((10 : ℤ), (9 : ℤ)).1, ((1 : ℤ), (39 : ℤ)).1].max?).getD 0)) = 10
    from by decide]
  rw [show orOne (([(9 : ℤ), (39 : ℤ)].max?).getD 0) = 39 from by decide]
  rw [qx_mk, qy_mk]
  rw [sortDescBy, List.foldl_cons, List.foldl_cons, List.foldl_nil,
    insertDescBy, insertDescBy]
  rw [if_neg (by norm_num), insertDescBy]

/-- C6 (counterexample): the post with likes `"-1w"` is emitted with
`engagement_score = -250000 < 0`; and the post `pQX` is emitted with
reported `total_score = 70` but `viral_potential = "medium"`, so the
claimed tiers over the reported score fail at the boundary. -/
theorem c6_counterexample :
    calculate_quality_scores [pQNeg1, pQNeg2] =
      some [⟨str "", str "", 30, 25, 0, 5, str "low"⟩,
            ⟨str "", str "", -350000, -250000, 0, -100000, str "low"⟩] ∧
    ((⟨str "", str "", -350000, -250000, 0, -100000, str "low"⟩ :
      QualityScore).engagement_score < 0) ∧
    calculate_quality_scores [pQX, pQY] =
      some [⟨str "", str "aaaaaaaaaaaaaaaaaaaaaaaaaaaaaa", 70, 57/2, 33/2, 25,
              str "medium"⟩,
            ⟨str "", str "b", 43, 35/2, 3/5, 25, str "low"⟩] ∧
    ((⟨str "", str "aaaaaaaaaaaaaaaaaaaaaaaaaaaaaa", 70, 57/2, 33/2, 25,
        str "medium"⟩ : QualityScore).total_score = 70) ∧
    (70 : ℚ) ≤ 70 ∧
    ¬ ((⟨str "", str "aaaaaaaaaaaaaaaaaaaaaaaaaaaaaa", 70, 57/2, 33/2, 25,
        str "medium"⟩ : QualityScore).viral_potential = str "high") :=
  ⟨cqneg_eval, by norm_num, cqround_eval, rfl, by norm_num, by decide⟩

/-- Witness for `c6_quality_scores` at the concrete input `[pQX, pQY]`. -/
theorem c6_quality_scores_witness :
    calculate_quality_scores [pQX, pQY] =
      some [⟨str "", str "aaaaaaaaaaaaaaaaaaaaaaaaaaaaaa", 70, 57/2, 33/2, 25,
              str "medium"⟩,
            ⟨str "", str "b", 43, 35/2, 3/5, 25, str "low"⟩] ∧
    ((⟨str "", str "aaaaaaaaaaaaaaaaaaaaaaaaaaaaaa", 70, 57/2, 33/2, 25,
        str "medium"⟩ : QualityScore) ∈
      [(⟨str "", str "aaaaaaaaaaaaaaaaaaaaaaaaaaaaaa", 70, 57/2, 33/2, 25,
          str "medium"⟩ : QualityScore),
       ⟨str "", str "b", 43, 35/2, 3/5, 25, str "low"⟩]) ∧
    (0 ≤ (⟨str "", str "aaaaaaaaaaaaaaaaaaaaaaaaaaaaaa", 70, 57/2, 33/2, 25,
        str "medium"⟩ : QualityScore).engagement_score ∧
     0 ≤ (⟨str "", str "aaaaaaaaaaaaaaaaaaaaaaaaaaaaaa", 70, 57/2, 33/2, 25,
        str "medium"⟩ : QualityScore).content_score ∧
     0 ≤ (⟨str "", str "aaaaaaaaaaaaaaaaaaaaaaaaaaaaaa", 70, 57/2, 33/2, 25,
        str "medium"⟩ : QualityScore).author_score ∧
     ∃ (maxL maxC : ℤ) (p : Post) (l c : ℤ), p ∈ [pQX, pQY] ∧
        parse_number p.likes = some l ∧ parse_number p.comments = some c ∧
        1 ≤ maxL ∧ 1 ≤ maxC ∧
        (⟨str "", str "aaaaaaaaaaaaaaaaaaaaaaaaaaaaaa", 70, 57/2, 33/2, 25,
          str "medium"⟩ : QualityScore) = mkQualityScore maxL maxC p l c ∧
        ((⟨str "", str "aaaaaaaaaaaaaaaaaaaaaaaaaaaaaa", 70, 57/2, 33/2, 25,
          str "medium"⟩ : QualityScore).viral_potential = str "high" ↔
          70 ≤ rawTotalScore maxL maxC p l c) ∧
        ((⟨str "", str "aaaaaaaaaaaaaaaaaaaaaaaaaaaaaa", 70, 57/2, 33/2, 25,
          str "medium"⟩ : QualityScore).viral_potential = str "medium" ↔
          (45 ≤ rawTotalScore maxL maxC p l c ∧ rawTotalScore maxL maxC p l c < 70)) ∧
        ((⟨str "", str "aaaaaaaaaaaaaaaaaaaaaaaaaaaaaa", 70, 57/2, 33/2, 25,
          str "medium"⟩ : QualityScore).viral_potential = str "low" ↔
          rawTotalScore maxL maxC p l c < 45)) := by
  have hnn : ∀ p ∈ [pQX, pQY], ∀ l c : ℤ, parse_number p.likes = some l →
      parse_number p.comments = some c → 0 ≤ l ∧ 0 ≤ c := by
    intro p hp l c hl hc
    rcases List.mem_cons.mp hp with rfl | hp2
    · rw [show parse_number pQX.likes = some 10 from by decide] at hl
      rw [show parse_number pQX.comments = some 9 from by decide] at hc
      obtain rfl := Option.some.inj hl
      obtain rfl := Option.some.inj hc
      norm_num
    · rcases List.mem_cons.mp hp2 with rfl | hp3
      · rw [show parse_number pQY.likes = some 1 from by decide] at hl
        rw [show parse_number pQY.comments = some 39 from by decide] at hc
        obtain rfl := Option.some.inj hl
        obtain rfl := Option.some.inj hc
        norm_num
      · simp at hp3
  refine ⟨cqround_eval, by with_unfolding_all decide, ?_⟩
  exact c6_quality_scores [pQX, pQY] _ cqround_eval hnn _
    (by with_unfolding_all decide)
